import Mathlib

/-!
MNIST to PGM converter: `convert_to_labeled_directories.c`

A shallow embedding of the C program and theorems about it.

Conventions of the embedding

* A C `int` is a Lean `Int` kept in the range `[-2^31, 2^31)`; every arithmetic
  result that the C code stores in an `int` goes through `wrap32`.
* `size_t` is 64 bits wide, so an `int` that is negative becomes a request of
  at least `2^64 - 2^31` items when it is passed to `calloc`, `fread` or
  `fwrite`.
* A byte is a `UInt8`; a C string is the list of its bytes without the
  terminating NUL; a stream opened for reading is the list of bytes that
  remain to be read.
* Each `exit(1)` site of the program is a constructor of `Error`, named after
  the error taxonomy of the specification.  `Error.MemoryFault` stands for the
  places where the program would access memory outside an allocated buffer.
* The operating system is a `World` (directories, files, and the trace of what
  the run created) together with an `Env` that says which `mkdir`, `fopen` and
  `fwrite` calls fail.
-/

namespace Mnist

/-! ## Machine integers, bytes and strings -/

/-- A C string: its bytes, without the terminating NUL. -/
abbrev CStr := List UInt8

/-- Two's complement reduction of a mathematical integer to a 32-bit `int`:
the residue modulo `2^32`, taken as negative when its top bit is set. -/
def wrap32 (x : Int) : Int :=
  let m := (x % 4294967296).toNat
  if m < 2147483648 then (m : Int) else (m : Int) - 4294967296

/-- The bytes of a string literal of the source (all of them are ASCII). -/
def ascii (s : String) : CStr := s.toList.map (fun c => UInt8.ofNat c.toNat)

/-- The ASCII code of a decimal digit. -/
def digitChar (d : Nat) : UInt8 := UInt8.ofNat (48 + d)

/-- Decimal digits of `n`, least significant first; `fuel` bounds the number of digits. -/
def revDigits : Nat → Nat → List UInt8
  | 0, _ => []
  | fuel + 1, n => digitChar (n % 10) :: (if n / 10 = 0 then [] else revDigits fuel (n / 10))

/-- Decimal representation of a natural number, as `printf("%d")` prints it. -/
def decimal (n : Nat) : CStr := (revDigits (n + 1) n).reverse

/-- The conversion `%d` of `printf` applied to an `int`. -/
def fmt_d (x : Int) : CStr :=
  if x < 0 then (45 : UInt8) :: decimal (-x).toNat else decimal x.toNat

/-! ## Constants of the source -/

def LABEL_MAGIC : Int := 2049
def IMAGE_MAGIC : Int := 2051
def PGM_MAGIC : CStr := ascii "P5"
def MAX_GRAY : Int := 255
def MAX_PATH : Nat := 255

/-! ## Errors, global state, operating system -/

/-- The ways in which the program stops early.  All but `MemoryFault` are an
`exit(1)` in the source; `UsageError` is the wrong-arity exit of `main`. -/
inductive Error where
  | UsageError
  | FileOpenError
  | BadMagicError
  | TruncatedReadError
  | InvalidHeaderError
  | ConsistencyError
  | MissingOutputDirectoryError
  | DirectoryCreateError
  | PathTooLongError
  | ImageWriteError
  | MemoryFault
  deriving DecidableEq, Repr

deriving instance DecidableEq for Except

/-- The global variables of the program. -/
structure Globals where
  num_labels : Int
  num_images : Int
  width : Int
  height : Int
  deriving DecidableEq, Repr

/-- Initial values of the global variables. -/
def Globals.init : Globals := { num_labels := 0, num_images := 0, width := 0, height := 0 }

/-- The file system as the program sees it.  `dirs` are the paths for which
`stat` reports a directory, `files` the regular files with their contents
(the first entry for a path is the current one).  `created` and `written` are
the trace of the run: the directories it made with `mkdir` and the files it
opened for writing with the bytes that reached them, oldest first. -/
structure World where
  dirs : List CStr
  files : List (CStr × List UInt8)
  created : List CStr
  written : List (CStr × List UInt8)
  deriving DecidableEq

/-- The behaviour of the operating system that the program cannot control:
whether `mkdir` of a path fails, whether `fopen(path, "w")` fails, and how many
of the `n` requested items `fwrite` accepts on the stream of a path. -/
structure Env where
  mkdir_fails : CStr → Bool
  fopen_fails : CStr → Bool
  fwrite_accepts : CStr → Nat → Nat

/-- An operating system in which every `mkdir`, `fopen` for writing and
`fwrite` succeeds. -/
def Env.ok : Env :=
  { mkdir_fails := fun _ => false, fopen_fails := fun _ => false, fwrite_accepts := fun _ n => n }

/-- A pointer into a byte buffer: the buffer and the offset of the pointer in it. -/
structure Ptr where
  buf : List UInt8
  off : Int
  deriving DecidableEq

/-! ## The binary reader -/

/-- Embedding of `read_int` (source lines 169-177): `fread` of one 4-byte item,
`exit(1)` when it is not there, else `ntohl` of it converted to `int`.
Returns the value and the rest of the stream. -/
def read_int (file : List UInt8) : Except Error (Int × List UInt8) :=
  match file with
  | b0 :: b1 :: b2 :: b3 :: rest =>
    .ok (wrap32 ((b0.toNat * 16777216 + b1.toNat * 65536 + b2.toNat * 256 + b3.toNat : Nat) : Int), rest)
  | _ => .error .TruncatedReadError

/-- Embedding of the sequence `buf = calloc(n, 1); got = fread(buf, 1, n, file);
if (got != n) exit(1);` shared by `read_labels` and `read_images`, for an `int n`.
For `0 ≤ n` the read delivers `min n (remaining bytes)` items.  For `n < 0` the
request is at least `2^64 - 2^31` bytes: `calloc` returns NULL, which the
source does not test, and `fread` stores whatever bytes remain through it; with
no byte remaining it stores nothing, returns `0`, and the comparison fails. -/
def read_block (n : Int) (file : List UInt8) : Except Error (List UInt8) :=
  if n < 0 then
    if file.length = 0 then .error .TruncatedReadError else .error .MemoryFault
  else
    let got := file.take n.toNat
    if (got.length : Int) ≠ n then .error .TruncatedReadError else .ok got

/-- Embedding of the part of `read_labels` after `fopen` (source lines 146-163). -/
def read_labels_stream (file : List UInt8) (g : Globals) : Except Error (List UInt8 × Globals) :=
  match read_int file with
  | .error e => .error e
  | .ok (magic, file1) =>
    if magic ≠ LABEL_MAGIC then .error .BadMagicError
    else
      match read_int file1 with
      | .error e => .error e
      | .ok (n, file2) =>
        let g1 := { g with num_labels := n }
        match read_block g1.num_labels file2 with
        | .error e => .error e
        | .ok labels => .ok (labels, g1)

/-- Embedding of `read_labels` (source lines 139-164). -/
def read_labels (w : World) (filename : CStr) (g : Globals) : Except Error (List UInt8 × Globals) :=
  match w.files.lookup filename with
  | none => .error .FileOpenError
  | some file => read_labels_stream file g

/-- Embedding of the part of `read_images` after `fopen` (source lines 108-132). -/
def read_images_stream (file : List UInt8) (g : Globals) : Except Error (List UInt8 × Globals) :=
  match read_int file with
  | .error e => .error e
  | .ok (magic, file1) =>
    if magic ≠ IMAGE_MAGIC then .error .BadMagicError
    else
      match read_int file1 with
      | .error e => .error e
      | .ok (n, file2) =>
        match read_int file2 with
        | .error e => .error e
        | .ok (h, file3) =>
          match read_int file3 with
          | .error e => .error e
          | .ok (wd, file4) =>
            let g1 := { g with num_images := n, height := h, width := wd }
            if g1.num_images ≤ 0 ∨ g1.height ≤ 0 ∨ g1.width ≤ 0 then .error .InvalidHeaderError
            else
              let num_bytes := wrap32 (wrap32 (g1.num_images * g1.height) * g1.width)
              match read_block num_bytes file4 with
              | .error e => .error e
              | .ok images => .ok (images, g1)

/-- Embedding of `read_images` (source lines 101-133). -/
def read_images (w : World) (filename : CStr) (g : Globals) : Except Error (List UInt8 × Globals) :=
  match w.files.lookup filename with
  | none => .error .FileOpenError
  | some file => read_images_stream file g

/-! ## The file system materializer -/

/-- Embedding of `isDirectory` (source lines 182-189). -/
def isDirectory (w : World) (path : CStr) : Bool := decide (path ∈ w.dirs)

/-- The number of items that a call `fwrite(p, 1, n, f)` or `fread(p, 1, n, f)`
requests for an `int n`: the conversion of `n` to the 64-bit `size_t`. -/
def size_t_of_int (n : Int) : Nat := (n % 18446744073709551616).toNat

/-- The bytes of the buffer that lie at and after the pointer; none when the
pointer is not inside the buffer. -/
def Ptr.avail (p : Ptr) : List UInt8 :=
  if 0 ≤ p.off ∧ p.off ≤ p.buf.length then p.buf.drop p.off.toNat else []

/-- The world after a successful `mkdir(path, 0755)`. -/
def World.mkdir (w : World) (path : CStr) : World :=
  { w with dirs := path :: w.dirs, created := w.created ++ [path] }

/-- The world after source lines 195-200 when `mkdir` is not needed or succeeds. -/
def World.ensure_dir (w : World) (path : CStr) : World :=
  if decide (path ∈ w.dirs) then w else w.mkdir path

/-- The world after the program stops with the stream of `path` holding `content`. -/
def World.store (w : World) (path : CStr) (content : List UInt8) : World :=
  { w with files := (path, content) :: w.files, written := w.written ++ [(path, content)] }

/-- The header line that `fprintf(outfile, "%s %d %d %d\n", PGM_MAGIC, width, height, MAX_GRAY)` prints. -/
def pgm_header (g : Globals) : List UInt8 :=
  PGM_MAGIC ++ ascii " " ++ fmt_d g.width ++ ascii " " ++ fmt_d g.height ++ ascii " "
    ++ fmt_d MAX_GRAY ++ ascii "\n"

/-- Embedding of `write_pgm_image` (source lines 194-227): the world after the
call and the error with which the program stopped inside it, if it did.
`strlcpy` returns the length of `directory`, and `strlcat` the sum of the
lengths of `directory` and `filename`.  `fwrite` of more items than the buffer
holds after the pointer is a `MemoryFault`; the stream is then lost with the
process and the file stays as `fopen` left it, empty. -/
def write_pgm_image (env : Env) (g : Globals) (w : World) (directory filename : CStr)
    (image : Ptr) : World × Option Error :=
  if !isDirectory w directory && env.mkdir_fails directory then
    (w, some .DirectoryCreateError)
  else
    let w1 : World := w.ensure_dir directory
    if directory.length ≥ MAX_PATH then (w1, some .PathTooLongError)
    else if directory.length + filename.length ≥ MAX_PATH then (w1, some .PathTooLongError)
    else
      let path := directory ++ filename
      if env.fopen_fails path then (w1, some .FileOpenError)
      else
        let num_pixels := wrap32 (g.width * g.height)
        let request := size_t_of_int num_pixels
        if request > image.avail.length then (w1.store path [], some .MemoryFault)
        else
          let accepted := min (env.fwrite_accepts path request) request
          let w2 := w1.store path (pgm_header g ++ image.avail.take accepted)
          if accepted ≠ request then (w2, some .ImageWriteError) else (w2, none)

/-! ## The orchestrator -/

/-- The result of a run: exit status, the error that stopped it, and the world it leaves. -/
structure Outcome where
  status : Nat
  error : Option Error
  world : World
  deriving DecidableEq

/-- Exit status of the process: `0` when `main` reaches its end, `1` for every
`exit(1)`, and `139` (killed by SIGSEGV) for a memory fault. -/
def exit_status : Option Error → Nat
  | none => 0
  | some .MemoryFault => 139
  | some _ => 1

/-- Embedding of the body of the loop of `main` (source lines 76-90) for the sample of
index `i`: the world after the iteration and the error with which the program stopped in
it, if it did.  `labels[i]` outside the buffer is a `MemoryFault`. -/
def sample_step (env : Env) (g : Globals) (labels images : List UInt8) (output_dir : CStr)
    (i : Nat) (w : World) : World × Option Error :=
  let current_image : Ptr := { buf := images, off := wrap32 (wrap32 ((i : Int) * g.width) * g.height) }
  match labels.get? i with
  | none => (w, some .MemoryFault)
  | some label =>
    let directory := output_dir ++ ascii "/" ++ fmt_d (label.toNat : Int) ++ ascii "/"
    if directory.length ≥ MAX_PATH then (w, some .PathTooLongError)
    else
      let filename := ascii "image" ++ fmt_d (i : Int) ++ ascii ".pgm"
      if filename.length ≥ MAX_PATH then (w, some .PathTooLongError)
      else write_pgm_image env g w directory filename current_image

/-- Embedding of the loop of `main` (source lines 75-91), `n` iterations
starting at index `i`.  `labels[i]` outside the buffer is a `MemoryFault`. -/
def convert_loop (env : Env) (g : Globals) (labels images : List UInt8) (output_dir : CStr) :
    Nat → Nat → World → World × Option Error
  | 0, _, w => (w, none)
  | n + 1, i, w =>
    let current_image : Ptr := { buf := images, off := wrap32 (wrap32 ((i : Int) * g.width) * g.height) }
    match labels.get? i with
    | none => (w, some .MemoryFault)
    | some label =>
      let directory := output_dir ++ ascii "/" ++ fmt_d (label.toNat : Int) ++ ascii "/"
      if directory.length ≥ MAX_PATH then (w, some .PathTooLongError)
      else
        let filename := ascii "image" ++ fmt_d (i : Int) ++ ascii ".pgm"
        if filename.length ≥ MAX_PATH then (w, some .PathTooLongError)
        else
          match write_pgm_image env g w directory filename current_image with
          | (w1, some e) => (w1, some e)
          | (w1, none) => convert_loop env g labels images output_dir n (i + 1) w1

/-- Embedding of `main` (source lines 47-95).  `args` are `argv[1]`, `argv[2]`, ...;
`argc` is their number plus one. -/
def main (env : Env) (w : World) (args : List CStr) : Outcome :=
  match args with
  | [labels_file, images_file, output_dir] =>
    match read_labels w labels_file Globals.init with
    | .error e => { status := exit_status (some e), error := some e, world := w }
    | .ok (labels, g1) =>
      match read_images w images_file g1 with
      | .error e => { status := exit_status (some e), error := some e, world := w }
      | .ok (images, g2) =>
        if g2.num_images ≠ g2.num_labels then
          { status := 1, error := some .ConsistencyError, world := w }
        else if !isDirectory w output_dir then
          { status := 1, error := some .MissingOutputDirectoryError, world := w }
        else
          match convert_loop env g2 labels images output_dir g2.num_images.toNat 0 w with
          | (w1, e) => { status := exit_status e, error := e, world := w1 }
  | _ => { status := 1, error := some .UsageError, world := w }

/-! ## The stream operations of the three calls that open a file -/

/-- What a call does with streams and how control leaves it: `fopen` succeeded on a path,
`fclose` was called on the stream of a path, the process ended inside the call (`exit(1)`, or
a memory fault) with the given status, the call returned to its caller. -/
inductive StreamEvent where
  | opened (path : CStr)
  | closed (path : CStr)
  | exited (status : Nat)
  | returned
  deriving DecidableEq

/-- The stream operations of `read_labels` (source lines 139-164) in program order.  The only
`fclose` is at line 161, after the last check; every check that fails, the one inside
`read_int` included, calls `exit(1)` directly. -/
def read_labels_streams (w : World) (filename : CStr) : List StreamEvent :=
  match w.files.lookup filename with
  | none => [.exited 1]
  | some file =>
    .opened filename ::
      match read_int file with
      | .error _ => [.exited 1]
      | .ok (magic, file1) =>
        if magic ≠ LABEL_MAGIC then [.exited 1]
        else
          match read_int file1 with
          | .error _ => [.exited 1]
          | .ok (n, file2) =>
            match read_block n file2 with
            | .error e => [.exited (exit_status (some e))]
            | .ok _ => [.closed filename, .returned]

/-- The stream operations of `read_images` (source lines 101-133) in program order.  The only
`fclose` is at line 130. -/
def read_images_streams (w : World) (filename : CStr) : List StreamEvent :=
  match w.files.lookup filename with
  | none => [.exited 1]
  | some file =>
    .opened filename ::
      match read_int file with
      | .error _ => [.exited 1]
      | .ok (magic, file1) =>
        if magic ≠ IMAGE_MAGIC then [.exited 1]
        else
          match read_int file1 with
          | .error _ => [.exited 1]
          | .ok (n, file2) =>
            match read_int file2 with
            | .error _ => [.exited 1]
            | .ok (h, file3) =>
              match read_int file3 with
              | .error _ => [.exited 1]
              | .ok (wd, file4) =>
                if n ≤ 0 ∨ h ≤ 0 ∨ wd ≤ 0 then [.exited 1]
                else
                  match read_block (wrap32 (wrap32 (n * h) * wd)) file4 with
                  | .error e => [.exited (exit_status (some e))]
                  | .ok _ => [.closed filename, .returned]

/-- The stream operations of `write_pgm_image` (source lines 194-227) in program order.  The
only `fclose` is at line 226. -/
def write_pgm_image_streams (env : Env) (g : Globals) (w : World) (directory filename : CStr)
    (image : Ptr) : List StreamEvent :=
  if !isDirectory w directory && env.mkdir_fails directory then [.exited 1]
  else if directory.length ≥ MAX_PATH then [.exited 1]
  else if directory.length + filename.length ≥ MAX_PATH then [.exited 1]
  else if env.fopen_fails (directory ++ filename) then [.exited 1]
  else
    .opened (directory ++ filename) ::
      (if size_t_of_int (wrap32 (g.width * g.height)) > image.avail.length then
        [.exited (exit_status (some .MemoryFault))]
      else if min (env.fwrite_accepts (directory ++ filename)
          (size_t_of_int (wrap32 (g.width * g.height))))
          (size_t_of_int (wrap32 (g.width * g.height)))
          ≠ size_t_of_int (wrap32 (g.width * g.height)) then [.exited 1]
      else [.closed (directory ++ filename), .returned])

/-- The streams that are open after a sequence of stream operations. -/
def open_after (events : List StreamEvent) : List CStr :=
  events.foldl
    (fun streams event =>
      match event with
      | .opened path => path :: streams
      | .closed path => streams.erase path
      | _ => streams)
    []

/-! ## Vocabulary of the specification -/

/-- The unsigned big-endian 32-bit value of the first four bytes of a byte
string (`0` when there are fewer than four). -/
def be_word : List UInt8 → Nat
  | b0 :: b1 :: b2 :: b3 :: _ => b0.toNat * 16777216 + b1.toNat * 65536 + b2.toNat * 256 + b3.toNat
  | _ => 0

/-- The unsigned big-endian 32-bit word at byte offset `off` of a file. -/
def u32_at (file : List UInt8) (off : Nat) : Nat := be_word (file.drop off)

/-- Whether a byte is an ASCII decimal digit. -/
def is_digit (b : UInt8) : Bool := decide (48 ≤ b.toNat ∧ b.toNat ≤ 57)

/-- The number that a string of decimal digits, most significant first, denotes. -/
def digits_value (ds : List UInt8) : Nat :=
  ds.foldl (fun acc d => 10 * acc + (d.toNat - 48)) 0

/-- Reads a non-empty run of decimal digits off the front of a byte string. -/
def read_number (s : List UInt8) : Option (Nat × List UInt8) :=
  if (s.takeWhile is_digit).isEmpty then none
  else some (digits_value (s.takeWhile is_digit), s.dropWhile is_digit)

/-- Reads the byte `b` off the front of a byte string. -/
def expect_byte (b : UInt8) (s : List UInt8) : Option (List UInt8) :=
  match s with
  | c :: rest => if c = b then some rest else none
  | [] => none

/-- The reading side of the round trip, in the words of the specification: the
token `P5`, a space, the decimal width, a space, the decimal height, a space,
the decimal maximum gray value, one newline, and then the raw pixel bytes up to
the end of the file.  Returns width, height, maximum gray value and payload. -/
def spec_pgm_parse (file : List UInt8) : Option (Nat × Nat × Nat × List UInt8) :=
  match expect_byte 80 file with
  | none => none
  | some s1 =>
    match expect_byte 53 s1 with
    | none => none
    | some s2 =>
      match expect_byte 32 s2 with
      | none => none
      | some s3 =>
        match read_number s3 with
        | none => none
        | some (width, s4) =>
          match expect_byte 32 s4 with
          | none => none
          | some s5 =>
            match read_number s5 with
            | none => none
            | some (height, s6) =>
              match expect_byte 32 s6 with
              | none => none
              | some s7 =>
                match read_number s7 with
                | none => none
                | some (max_gray, s8) =>
                  match expect_byte 10 s8 with
                  | none => none
                  | some payload => some (width, height, max_gray, payload)

/-- The path of the file that the run writes for sample `i` with label `label`:
`output_dir/<label>/image<i>.pgm`. -/
def sample_path (output_dir : CStr) (label : UInt8) (i : Nat) : CStr :=
  (output_dir ++ ascii "/" ++ fmt_d (label.toNat : Int) ++ ascii "/")
    ++ (ascii "image" ++ fmt_d (i : Int) ++ ascii ".pgm")

/-- A directory name of 245 bytes. -/
def long_directory : CStr := List.replicate 245 97

/-- A file system in which `long_directory` exists. -/
def long_directory_world : World :=
  { dirs := [long_directory], files := [], created := [], written := [] }

/-- The header line of a written file in the words of the specification:
`P5 <width> <height> 255` and a newline. -/
def spec_header (width height : Nat) : List UInt8 :=
  ascii "P5 " ++ decimal width ++ ascii " " ++ decimal height ++ ascii " 255\n"

/-- An output directory name of 250 bytes. -/
def long_output_dir : CStr := List.replicate 250 97

/-- The directory string that `main` composes for a sample with label `label`:
`output_dir/<label>/`. -/
def sample_dir (output_dir : CStr) (label : UInt8) : CStr :=
  output_dir ++ ascii "/" ++ fmt_d (label.toNat : Int) ++ ascii "/"

/-- The file name that `main` composes for sample `i`: `image<i>.pgm`. -/
def sample_file (i : Nat) : CStr := ascii "image" ++ fmt_d (i : Int) ++ ascii ".pgm"

/-! ## The end-to-end example of the specification -/

/-- The label file of the example: magic 2049, count 2, labels 3 and 7. -/
def example_labels_file : List UInt8 := [0, 0, 8, 1, 0, 0, 0, 2, 3, 7]

/-- The image file of the example: magic 2051, two images of 2 by 2 pixels. -/
def example_images_file : List UInt8 :=
  [0, 0, 8, 3, 0, 0, 0, 2, 0, 0, 0, 2, 0, 0, 0, 2, 10, 20, 30, 40, 50, 60, 70, 80]

/-- A file system with the two input files and the empty output directory `outdir`. -/
def example_world : World :=
  { dirs := [ascii "outdir"],
    files := [(ascii "labels", example_labels_file), (ascii "images", example_images_file)],
    created := [],
    written := [] }

/-- A label file that declares one label only: magic 2049, count 1, label 3. -/
def single_label_file : List UInt8 := [0, 0, 8, 1, 0, 0, 0, 1, 3]

/-- A file system whose label file has one label and whose image file has two images. -/
def mismatch_world : World :=
  { dirs := [ascii "outdir"],
    files := [(ascii "labels", single_label_file), (ascii "images", example_images_file)],
    created := [],
    written := [] }

/-- The file system of the example with the existing output directory `long_output_dir`. -/
def long_output_world : World :=
  { dirs := [long_output_dir],
    files := [(ascii "labels", example_labels_file), (ascii "images", example_images_file)],
    created := [],
    written := [] }

/-- The example file system with three more bytes at the end of each input file. -/
def trailing_bytes_world : World :=
  { dirs := [ascii "outdir"],
    files := [(ascii "labels", example_labels_file ++ [1, 2, 3]),
              (ascii "images", example_images_file ++ [1, 2, 3])],
    created := [],
    written := [] }

/-- A file system whose label file declares no label and has two more bytes. -/
def zero_count_world : World :=
  { dirs := [ascii "outdir"],
    files := [(ascii "labels", [0, 0, 8, 1, 0, 0, 0, 0] ++ [9, 9])],
    created := [],
    written := [] }

/-- A file system whose two input files are both malformed: the label file has a wrong magic
number and the image file is two bytes long. -/
def both_invalid_world : World :=
  { dirs := [ascii "outdir"],
    files := [(ascii "labels", [1, 2, 3, 4, 0, 0, 0, 0]), (ascii "images", [0, 0])],
    created := [],
    written := [] }

/-- A label file whose declared count is `2^31`, followed by one label byte. -/
def high_count_labels_file : List UInt8 := [0, 0, 8, 1, 128, 0, 0, 0, 5]

/-- A file system with the label file `high_count_labels_file` and the image file of the
example. -/
def high_count_world : World :=
  { dirs := [ascii "outdir"],
    files := [(ascii "labels", high_count_labels_file), (ascii "images", example_images_file)],
    created := [],
    written := [] }

/-- A label file with the four labels 1, 2, 3, 4. -/
def four_labels_file : List UInt8 := [0, 0, 8, 1, 0, 0, 0, 4, 1, 2, 3, 4]

/-- An image file that declares 4 images of 32768 by 32768 pixels and has no payload. -/
def wrapping_images_file : List UInt8 :=
  [0, 0, 8, 3, 0, 0, 0, 4, 0, 0, 128, 0, 0, 0, 128, 0]

/-- A file system with the input files `four_labels_file` and `wrapping_images_file`. -/
def wrapping_world : World :=
  { dirs := [ascii "outdir"],
    files := [(ascii "labels", four_labels_file), (ascii "images", wrapping_images_file)],
    created := [],
    written := [] }

/-- A label file with the two labels 3 and 100. -/
def two_digit_labels_file : List UInt8 := [0, 0, 8, 1, 0, 0, 0, 2, 3, 100]

/-- An output directory name of 251 bytes. -/
def output_dir_251 : CStr := List.replicate 251 97

/-- A file system with the labels 3 and 100, the images of the example and the existing output
directory `output_dir_251`. -/
def output_251_world : World :=
  { dirs := [output_dir_251],
    files := [(ascii "labels", two_digit_labels_file), (ascii "images", example_images_file)],
    created := [],
    written := [] }

/-- An output directory name of 241 bytes. -/
def output_dir_241 : CStr := List.replicate 241 97

/-- A file system with the labels 3 and 100, the images of the example and the existing output
directory `output_dir_241`. -/
def output_241_world : World :=
  { dirs := [output_dir_241],
    files := [(ascii "labels", two_digit_labels_file), (ascii "images", example_images_file)],
    created := [],
    written := [] }

/-- A label file with the three labels 3, 7 and 3. -/
def three_labels_file : List UInt8 := [0, 0, 8, 1, 0, 0, 0, 3, 3, 7, 3]

/-- An image file with three images of one pixel: magic 2051, count 3, height 1, width 1. -/
def three_images_file : List UInt8 :=
  [0, 0, 8, 3, 0, 0, 0, 3, 0, 0, 0, 1, 0, 0, 0, 1, 10, 20, 30]

/-- A file system with these three samples and the empty output directory `outdir`. -/
def three_sample_world : World :=
  { dirs := [ascii "outdir"],
    files := [(ascii "labels", three_labels_file), (ascii "images", three_images_file)],
    created := [],
    written := [] }

/-- An operating system in which `fopen` fails for the file of sample 1 of
`three_sample_world` and for nothing else. -/
def second_file_refused : Env :=
  { mkdir_fails := fun _ => false,
    fopen_fails := fun p => p == ascii "outdir/7/image1.pgm",
    fwrite_accepts := fun _ n => n }

/-! ## Basic facts -/

theorem wrap32_eq (x : Int) : wrap32 x = (x + 2147483648) % 4294967296 - 2147483648 := by
  unfold wrap32
  dsimp only
  split <;> omega

theorem wrap32_of_lt (x : Int) (h0 : 0 ≤ x) (h1 : x < 2147483648) : wrap32 x = x := by
  rw [wrap32_eq]; omega

theorem wrap32_of_ge (x : Int) (h0 : 2147483648 ≤ x) (h1 : x < 4294967296) :
    wrap32 x = x - 4294967296 := by
  rw [wrap32_eq]; omega

theorem wrap32_range (x : Int) : -2147483648 ≤ wrap32 x ∧ wrap32 x < 2147483648 := by
  rw [wrap32_eq]; omega

theorem be_word_lt (file : List UInt8) : be_word file < 4294967296 := by
  unfold be_word
  split
  · rename_i b0 b1 b2 b3 _
    have h0 := b0.toNat_lt
    have h1 := b1.toNat_lt
    have h2 := b2.toNat_lt
    have h3 := b3.toNat_lt
    omega
  · omega

theorem u32_at_lt (file : List UInt8) (off : Nat) : u32_at file off < 4294967296 :=
  be_word_lt _

theorem read_int_of_length (file : List UInt8) (h : 4 ≤ file.length) :
    read_int file = .ok (wrap32 (be_word file : Int), file.drop 4) := by
  match file, h with
  | b0 :: b1 :: b2 :: b3 :: rest, _ => rfl

theorem read_int_short (file : List UInt8) (h : file.length < 4) :
    read_int file = .error .TruncatedReadError := by
  match file, h with
  | [], _ => rfl
  | [_], _ => rfl
  | [_, _], _ => rfl
  | [_, _, _], _ => rfl
  | _ :: _ :: _ :: _ :: _, h => simp at h; omega

theorem wrap32_eq_iff (n : Nat) (hn : n < 4294967296) (c : Int) (hc0 : 0 ≤ c)
    (hc1 : c < 2147483648) : wrap32 (n : Int) = c ↔ (n : Int) = c := by
  rw [wrap32_eq]; omega

theorem read_block_of_le (n : Int) (file : List UInt8) (h0 : 0 ≤ n) (h : n ≤ file.length) :
    read_block n file = .ok (file.take n.toNat) := by
  unfold read_block
  have hl : ((file.take n.toNat).length : Int) = n := by
    rw [List.length_take]; omega
  rw [if_neg (by omega)]
  simp only [hl, ne_eq, not_true_eq_false, if_false]

theorem read_block_of_gt (n : Int) (file : List UInt8) (h0 : 0 ≤ n) (h : (file.length : Int) < n) :
    read_block n file = .error .TruncatedReadError := by
  unfold read_block
  have hl : ((file.take n.toNat).length : Int) ≠ n := by
    rw [List.length_take]; omega
  rw [if_neg (by omega)]
  simp only [hl, ne_eq, not_false_eq_true, if_true]

theorem u32_at_zero (file : List UInt8) : u32_at file 0 = be_word file := by
  simp [u32_at]

theorem read_int_head (file : List UInt8) (h : 4 ≤ file.length) :
    read_int file = .ok (wrap32 (u32_at file 0 : Int), file.drop 4) := by
  rw [read_int_of_length file h, u32_at_zero]

theorem read_int_drop (file : List UInt8) (k m : Nat) (hm : m = k + 4) (h : m ≤ file.length) :
    read_int (file.drop k) = .ok (wrap32 (u32_at file k : Int), file.drop m) := by
  subst hm
  rw [read_int_of_length (file.drop k) (by simp; omega), List.drop_drop]
  rfl

theorem wrap32_magic (n : Nat) (hn : n < 4294967296) (c : Int) (hc0 : 0 ≤ c)
    (hc1 : c < 2147483648) : wrap32 (n : Int) ≠ c ↔ (n : Int) ≠ c := by
  rw [wrap32_eq]; omega

/-! ## Facts about the label reader -/

theorem read_labels_stream_short (file : List UInt8) (g : Globals) (h : file.length < 4) :
    read_labels_stream file g = .error .TruncatedReadError := by
  simp only [read_labels_stream, read_int_short file h]

theorem read_labels_stream_bad_magic (file : List UInt8) (g : Globals) (h : 4 ≤ file.length)
    (hm : u32_at file 0 ≠ 2049) : read_labels_stream file g = .error .BadMagicError := by
  have hlt := u32_at_lt file 0
  have hne : wrap32 (u32_at file 0 : Int) ≠ LABEL_MAGIC := by
    rw [wrap32_eq]; unfold LABEL_MAGIC; omega
  simp only [read_labels_stream, read_int_head file h, hne, ne_eq, not_false_eq_true, if_true]

theorem read_labels_stream_header_short (file : List UInt8) (g : Globals) (h : 4 ≤ file.length)
    (hm : u32_at file 0 = 2049) (h8 : file.length < 8) :
    read_labels_stream file g = .error .TruncatedReadError := by
  have he : wrap32 (u32_at file 0 : Int) = LABEL_MAGIC := by
    rw [wrap32_eq]; unfold LABEL_MAGIC; omega
  have hd : (file.drop 4).length < 4 := by simp; omega
  simp only [read_labels_stream, read_int_head file h, he, ne_eq, not_true_eq_false,
    if_false, read_int_short _ hd]

theorem read_labels_stream_block_ok (file : List UInt8) (g : Globals) (h8 : 8 ≤ file.length)
    (hm : u32_at file 0 = 2049) (labels : List UInt8)
    (hb : read_block (wrap32 (u32_at file 4 : Int)) (file.drop 8) = .ok labels) :
    read_labels_stream file g
      = .ok (labels, { g with num_labels := wrap32 (u32_at file 4 : Int) }) := by
  have he : wrap32 (u32_at file 0 : Int) = LABEL_MAGIC := by
    rw [wrap32_eq]; unfold LABEL_MAGIC; omega
  simp only [read_labels_stream, read_int_head file (by omega), he, ne_eq, not_true_eq_false,
    if_false, read_int_drop file 4 8 rfl h8, hb]

theorem read_labels_stream_block_error (file : List UInt8) (g : Globals) (h8 : 8 ≤ file.length)
    (hm : u32_at file 0 = 2049) (e : Error)
    (hb : read_block (wrap32 (u32_at file 4 : Int)) (file.drop 8) = .error e) :
    read_labels_stream file g = .error e := by
  have he : wrap32 (u32_at file 0 : Int) = LABEL_MAGIC := by
    rw [wrap32_eq]; unfold LABEL_MAGIC; omega
  simp only [read_labels_stream, read_int_head file (by omega), he, ne_eq, not_true_eq_false,
    if_false, read_int_drop file 4 8 rfl h8, hb]

/-- A well-formed label file whose count fits an `int` is read as the specification says. -/
theorem read_labels_stream_valid (file : List UInt8) (g : Globals) (h8 : 8 ≤ file.length)
    (hm : u32_at file 0 = 2049) (hc : u32_at file 4 < 2147483648)
    (hlen : 8 + u32_at file 4 ≤ file.length) :
    read_labels_stream file g =
      .ok ((file.drop 8).take (u32_at file 4), { g with num_labels := (u32_at file 4 : Int) }) := by
  have hw : wrap32 (u32_at file 4 : Int) = (u32_at file 4 : Int) :=
    wrap32_of_lt _ (by omega) (by omega)
  have hb : read_block (wrap32 (u32_at file 4 : Int)) (file.drop 8)
      = .ok ((file.drop 8).take (u32_at file 4)) := by
    rw [hw]
    have := read_block_of_le (u32_at file 4 : Int) (file.drop 8) (by omega) (by simp; omega)
    rw [this, Int.toNat_ofNat]
  rw [read_labels_stream_block_ok file g h8 hm _ hb, hw]

/-- A label file whose count fits an `int` and whose payload is short is rejected as truncated. -/
theorem read_labels_stream_truncated (file : List UInt8) (g : Globals) (h8 : 8 ≤ file.length)
    (hm : u32_at file 0 = 2049) (hc : u32_at file 4 < 2147483648)
    (hlen : file.length < 8 + u32_at file 4) :
    read_labels_stream file g = .error .TruncatedReadError := by
  have hw : wrap32 (u32_at file 4 : Int) = (u32_at file 4 : Int) :=
    wrap32_of_lt _ (by omega) (by omega)
  have hb := read_block_of_gt (u32_at file 4 : Int) (file.drop 8) (by omega) (by simp; omega)
  rw [← hw] at hb
  exact read_labels_stream_block_error file g h8 hm _ hb

/-- A label file whose count does not fit an `int` and that has a payload byte makes the reader
store through a null pointer. -/
theorem read_labels_stream_negative (file : List UInt8) (g : Globals) (h8 : 8 < file.length)
    (hm : u32_at file 0 = 2049) (hc : 2147483648 ≤ u32_at file 4) :
    read_labels_stream file g = .error .MemoryFault := by
  have hlt := u32_at_lt file 4
  have hneg : wrap32 (u32_at file 4 : Int) < 0 := by
    rw [wrap32_of_ge _ (by omega) (by omega)]; omega
  have hl : (file.drop 8).length ≠ 0 := by simp; omega
  have hb : read_block (wrap32 (u32_at file 4 : Int)) (file.drop 8) = .error .MemoryFault := by
    simp only [read_block, hneg, if_true, hl, if_false]
  exact read_labels_stream_block_error file g (by omega) hm _ hb

/-! ## Facts about the image reader -/

theorem image_magic_ok (file : List UInt8) (hm : u32_at file 0 = 2051) :
    wrap32 (u32_at file 0 : Int) = IMAGE_MAGIC := by
  rw [wrap32_eq]; unfold IMAGE_MAGIC; omega

theorem read_images_stream_short (file : List UInt8) (g : Globals) (h : file.length < 4) :
    read_images_stream file g = .error .TruncatedReadError := by
  simp only [read_images_stream, read_int_short file h]

theorem read_images_stream_bad_magic (file : List UInt8) (g : Globals) (h : 4 ≤ file.length)
    (hm : u32_at file 0 ≠ 2051) : read_images_stream file g = .error .BadMagicError := by
  have hlt := u32_at_lt file 0
  have hne : wrap32 (u32_at file 0 : Int) ≠ IMAGE_MAGIC := by
    rw [wrap32_eq]; unfold IMAGE_MAGIC; omega
  simp only [read_images_stream, read_int_head file h, hne, ne_eq, not_false_eq_true, if_true]

theorem read_images_stream_header_short (file : List UInt8) (g : Globals) (h : 4 ≤ file.length)
    (hm : u32_at file 0 = 2051) (h16 : file.length < 16) :
    read_images_stream file g = .error .TruncatedReadError := by
  have he := image_magic_ok file hm
  by_cases h8 : file.length < 8
  · have hd : (file.drop 4).length < 4 := by simp; omega
    simp only [read_images_stream, read_int_head file h, he, ne_eq, not_true_eq_false,
      if_false, read_int_short _ hd]
  · by_cases h12 : file.length < 12
    · have hd : (file.drop 8).length < 4 := by simp; omega
      simp only [read_images_stream, read_int_head file h, he, ne_eq, not_true_eq_false,
        if_false, read_int_drop file 4 8 rfl (by omega), read_int_short _ hd]
    · have hd : (file.drop 12).length < 4 := by simp; omega
      simp only [read_images_stream, read_int_head file h, he, ne_eq, not_true_eq_false,
        if_false, read_int_drop file 4 8 rfl (by omega), read_int_drop file 8 12 rfl (by omega),
        read_int_short _ hd]

theorem read_images_stream_invalid (file : List UInt8) (g : Globals) (h16 : 16 ≤ file.length)
    (hm : u32_at file 0 = 2051)
    (hbad : wrap32 (u32_at file 4 : Int) ≤ 0 ∨ wrap32 (u32_at file 8 : Int) ≤ 0
      ∨ wrap32 (u32_at file 12 : Int) ≤ 0) :
    read_images_stream file g = .error .InvalidHeaderError := by
  have he := image_magic_ok file hm
  simp only [read_images_stream, read_int_head file (by omega), he, ne_eq, not_true_eq_false,
    if_false, read_int_drop file 4 8 rfl (by omega), read_int_drop file 8 12 rfl (by omega),
    read_int_drop file 12 16 rfl h16, hbad, if_true]

theorem read_images_stream_block_ok (file : List UInt8) (g : Globals) (h16 : 16 ≤ file.length)
    (hm : u32_at file 0 = 2051)
    (hn : 0 < wrap32 (u32_at file 4 : Int)) (hh : 0 < wrap32 (u32_at file 8 : Int))
    (hw : 0 < wrap32 (u32_at file 12 : Int)) (images : List UInt8)
    (hb : read_block (wrap32 (wrap32 (wrap32 (u32_at file 4 : Int) * wrap32 (u32_at file 8 : Int))
      * wrap32 (u32_at file 12 : Int))) (file.drop 16) = .ok images) :
    read_images_stream file g
      = .ok (images, { g with num_images := wrap32 (u32_at file 4 : Int),
                              height := wrap32 (u32_at file 8 : Int),
                              width := wrap32 (u32_at file 12 : Int) }) := by
  have he := image_magic_ok file hm
  have hgood : ¬ (wrap32 (u32_at file 4 : Int) ≤ 0 ∨ wrap32 (u32_at file 8 : Int) ≤ 0
      ∨ wrap32 (u32_at file 12 : Int) ≤ 0) := by omega
  simp only [read_images_stream, read_int_head file (by omega), he, ne_eq, not_true_eq_false,
    if_false, read_int_drop file 4 8 rfl (by omega), read_int_drop file 8 12 rfl (by omega),
    read_int_drop file 12 16 rfl h16, hgood, hb]

theorem read_images_stream_block_error (file : List UInt8) (g : Globals) (h16 : 16 ≤ file.length)
    (hm : u32_at file 0 = 2051)
    (hn : 0 < wrap32 (u32_at file 4 : Int)) (hh : 0 < wrap32 (u32_at file 8 : Int))
    (hw : 0 < wrap32 (u32_at file 12 : Int)) (e : Error)
    (hb : read_block (wrap32 (wrap32 (wrap32 (u32_at file 4 : Int) * wrap32 (u32_at file 8 : Int))
      * wrap32 (u32_at file 12 : Int))) (file.drop 16) = .error e) :
    read_images_stream file g = .error e := by
  have he := image_magic_ok file hm
  have hgood : ¬ (wrap32 (u32_at file 4 : Int) ≤ 0 ∨ wrap32 (u32_at file 8 : Int) ≤ 0
      ∨ wrap32 (u32_at file 12 : Int) ≤ 0) := by omega
  simp only [read_images_stream, read_int_head file (by omega), he, ne_eq, not_true_eq_false,
    if_false, read_int_drop file 4 8 rfl (by omega), read_int_drop file 8 12 rfl (by omega),
    read_int_drop file 12 16 rfl h16, hgood, hb]

theorem read_block_error_kinds (n : Int) (file : List UInt8) (e : Error)
    (h : read_block n file = .error e) : e = .TruncatedReadError ∨ e = .MemoryFault := by
  unfold read_block at h
  split at h
  · split at h
    · injection h with h; exact Or.inl h.symm
    · injection h with h; exact Or.inr h.symm
  · dsimp only at h
    split at h
    · injection h with h; exact Or.inl h.symm
    · cases h

theorem signed_nonpos_iff (k : Nat) (hk : k < 4294967296) :
    wrap32 (k : Int) ≤ 0 ↔ k = 0 ∨ 2147483648 ≤ k := by
  rw [wrap32_eq]; omega

theorem signed_pos_eq (k : Nat) (h0 : 0 < k) (h1 : k < 2147483648) :
    wrap32 (k : Int) = (k : Int) := by
  rw [wrap32_eq]; omega

theorem read_labels_of_lookup (w : World) (name : CStr) (file : List UInt8) (g : Globals)
    (h : w.files.lookup name = some file) : read_labels w name g = read_labels_stream file g := by
  simp only [read_labels, h]

theorem read_images_of_lookup (w : World) (name : CStr) (file : List UInt8) (g : Globals)
    (h : w.files.lookup name = some file) : read_images w name g = read_images_stream file g := by
  simp only [read_images, h]

/-- The label reader reports a bad magic number exactly for a file of at least four bytes whose
first word is not 2049. -/
theorem read_labels_stream_bad_magic_iff (file : List UInt8) (g : Globals) :
    read_labels_stream file g = .error .BadMagicError ↔ 4 ≤ file.length ∧ u32_at file 0 ≠ 2049 := by
  constructor
  · intro h
    by_cases h4 : file.length < 4
    · rw [read_labels_stream_short file g h4] at h; cases h
    · refine ⟨by omega, fun hm => ?_⟩
      by_cases h8 : file.length < 8
      · rw [read_labels_stream_header_short file g (by omega) hm h8] at h; cases h
      · cases hb : read_block (wrap32 (u32_at file 4 : Int)) (file.drop 8) with
        | error e =>
          rw [read_labels_stream_block_error file g (by omega) hm e hb] at h
          rcases read_block_error_kinds _ _ _ hb with he | he <;> subst he <;> cases h
        | ok labels =>
          rw [read_labels_stream_block_ok file g (by omega) hm labels hb] at h; cases h
  · rintro ⟨h4, hm⟩
    exact read_labels_stream_bad_magic file g h4 hm

/-- The image reader reports a bad magic number exactly for a file of at least four bytes whose
first word is not 2051. -/
theorem read_images_stream_bad_magic_iff (file : List UInt8) (g : Globals) :
    read_images_stream file g = .error .BadMagicError ↔ 4 ≤ file.length ∧ u32_at file 0 ≠ 2051 := by
  constructor
  · intro h
    by_cases h4 : file.length < 4
    · rw [read_images_stream_short file g h4] at h; cases h
    · refine ⟨by omega, fun hm => ?_⟩
      by_cases h16 : file.length < 16
      · rw [read_images_stream_header_short file g (by omega) hm h16] at h; cases h
      · by_cases hbad : wrap32 (u32_at file 4 : Int) ≤ 0 ∨ wrap32 (u32_at file 8 : Int) ≤ 0
            ∨ wrap32 (u32_at file 12 : Int) ≤ 0
        · rw [read_images_stream_invalid file g (by omega) hm hbad] at h; cases h
        · cases hb : read_block (wrap32 (wrap32 (wrap32 (u32_at file 4 : Int)
              * wrap32 (u32_at file 8 : Int)) * wrap32 (u32_at file 12 : Int))) (file.drop 16) with
          | error e =>
            rw [read_images_stream_block_error file g (by omega) hm (by omega) (by omega)
              (by omega) e hb] at h
            rcases read_block_error_kinds _ _ _ hb with he | he <;> subst he <;> cases h
          | ok images =>
            rw [read_images_stream_block_ok file g (by omega) hm (by omega) (by omega)
              (by omega) images hb] at h
            cases h
  · rintro ⟨h4, hm⟩
    exact read_images_stream_bad_magic file g h4 hm

/-- A file that the image reader accepts starts with the word 2051. -/
theorem read_images_stream_ok_magic (file : List UInt8) (g : Globals)
    (r : List UInt8 × Globals) (h : read_images_stream file g = .ok r) :
    4 ≤ file.length ∧ u32_at file 0 = 2051 := by
  by_cases h4 : file.length < 4
  · rw [read_images_stream_short file g h4] at h; cases h
  · refine ⟨by omega, ?_⟩
    by_contra hm
    rw [read_images_stream_bad_magic file g (by omega) hm] at h; cases h

/-! ## Facts about `main` before the loop -/

theorem main_labels_error (env : Env) (w : World) (a b c : CStr) (e : Error)
    (h : read_labels w a Globals.init = .error e) :
    main env w [a, b, c] = { status := exit_status (some e), error := some e, world := w } := by
  simp only [main, h]

theorem main_images_error (env : Env) (w : World) (a b c : CStr) (labels : List UInt8)
    (g1 : Globals) (e : Error) (h : read_labels w a Globals.init = .ok (labels, g1))
    (h2 : read_images w b g1 = .error e) :
    main env w [a, b, c] = { status := exit_status (some e), error := some e, world := w } := by
  simp only [main, h, h2]

theorem main_count_mismatch (env : Env) (w : World) (a b c : CStr) (labels images : List UInt8)
    (g1 g2 : Globals) (h : read_labels w a Globals.init = .ok (labels, g1))
    (h2 : read_images w b g1 = .ok (images, g2)) (hne : g2.num_images ≠ g2.num_labels) :
    main env w [a, b, c] = { status := 1, error := some .ConsistencyError, world := w } := by
  simp only [main, h, h2, hne, ne_eq, not_false_eq_true, if_true]

/-! ## The claims about the binary reader -/

/-- C8 (the code departs from it): for the four bytes `80 00 00 00` the claim promises the
unsigned value `2147483648`; `read_int` consumes the four bytes and returns the `int`
`-2147483648`. -/
theorem read_int_high_bit_is_negative :
    read_int [128, 0, 0, 0] = .ok (-2147483648, []) ∧
      be_word [128, 0, 0, 0] = 2147483648 := by
  decide

theorem read_labels_high_count (rest : List UInt8) (h : rest ≠ []) :
    read_labels_stream (0 :: 0 :: 8 :: 1 :: 128 :: 0 :: 0 :: 0 :: rest) Globals.init
        = .error .MemoryFault ∧
      u32_at (0 :: 0 :: 8 :: 1 :: 128 :: 0 :: 0 :: 0 :: rest) 4 = 2147483648 := by
  have h4 : u32_at (0 :: 0 :: 8 :: 1 :: 128 :: 0 :: 0 :: 0 :: rest) 4 = 2147483648 := rfl
  have h0 : u32_at (0 :: 0 :: 8 :: 1 :: 128 :: 0 :: 0 :: 0 :: rest) 0 = 2049 := rfl
  have hl : 0 < rest.length := List.length_pos.mpr h
  refine ⟨read_labels_stream_negative _ _ ?_ h0 (by rw [h4]), h4⟩
  simp only [List.length_cons]; omega

/-- C3 (the code departs from it): a label file with magic 2049 and count `2^31` followed by
`2^31` label bytes has all the bytes the claim asks for, yet `read_labels` does not return a
label set: the count is read as the `int` `-2147483648`. -/
theorem read_labels_count_high_bit :
    read_labels_stream
        (0 :: 0 :: 8 :: 1 :: 128 :: 0 :: 0 :: 0 :: List.replicate 2147483648 (0 : UInt8))
        Globals.init = .error .MemoryFault ∧
      u32_at (0 :: 0 :: 8 :: 1 :: 128 :: 0 :: 0 :: 0 :: List.replicate 2147483648 (0 : UInt8)) 4
        = (List.replicate 2147483648 (0 : UInt8)).length := by
  have hne : List.replicate 2147483648 (0 : UInt8) ≠ [] := by
    intro h
    have := congrArg List.length h
    rw [List.length_replicate, List.length_nil] at this
    omega
  have := read_labels_high_count _ hne
  rw [List.length_replicate]
  exact this

/-- C7 (the code departs from it): a label file with magic 2049, count `2^31` and one label
byte is short of its declared count, yet `read_labels` does not stop with the truncated-read
error: the count is read as the `int` `-2147483648` and the byte is stored through the null
pointer that `calloc` returned. -/
theorem read_labels_truncated_high_bit :
    read_labels_stream [0, 0, 8, 1, 128, 0, 0, 0, 5] Globals.init = .error .MemoryFault := by
  decide

/-- C2 (the code departs from it): the 16-byte image file with header words 65536, 65536, 1
is accepted with an empty image buffer, although the product of the three words is `2^32`. -/
theorem read_images_product_wraps :
    read_images_stream [0, 0, 8, 3, 0, 1, 0, 0, 0, 1, 0, 0, 0, 0, 0, 1] Globals.init
        = .ok ([], { num_labels := 0, num_images := 65536, width := 1, height := 65536 }) ∧
      u32_at [0, 0, 8, 3, 0, 1, 0, 0, 0, 1, 0, 0, 0, 0, 0, 1] 4
        * u32_at [0, 0, 8, 3, 0, 1, 0, 0, 0, 1, 0, 0, 0, 0, 0, 1] 8
        * u32_at [0, 0, 8, 3, 0, 1, 0, 0, 0, 1, 0, 0, 0, 0, 0, 1] 12 = 4294967296 := by
  decide

/-- C9 (as stated it fails): the header words `2^31`, 1, 1 are all different from zero, yet
`read_images` stops with the invalid-header error. -/
theorem invalid_header_on_nonzero_words :
    read_images_stream [0, 0, 8, 3, 128, 0, 0, 0, 0, 0, 0, 1, 0, 0, 0, 1, 7] Globals.init
        = .error .InvalidHeaderError ∧
      u32_at [0, 0, 8, 3, 128, 0, 0, 0, 0, 0, 0, 1, 0, 0, 0, 1, 7] 4 ≠ 0 ∧
      u32_at [0, 0, 8, 3, 128, 0, 0, 0, 0, 0, 0, 1, 0, 0, 0, 1, 7] 8 ≠ 0 ∧
      u32_at [0, 0, 8, 3, 128, 0, 0, 0, 0, 0, 0, 1, 0, 0, 0, 1, 7] 12 ≠ 0 := by
  decide

/-- C9 (amended): for an image file with magic 2051 and a complete 16-byte header,
`read_images` stops with the invalid-header error if and only if one of the words at offsets
4, 8 and 12, read as a signed 32-bit `int`, is not strictly positive, that is, the unsigned
word is zero or at least `2^31`; and when it returns, `num_images`, `height` and `width` are
the unsigned big-endian words at offsets 4, 8 and 12. -/
theorem read_images_invalid_header_iff (w : World) (name : CStr) (file : List UInt8)
    (g : Globals) (hfile : w.files.lookup name = some file) (h16 : 16 ≤ file.length)
    (hm : u32_at file 0 = 2051) :
    (read_images w name g = .error .InvalidHeaderError ↔
      (u32_at file 4 = 0 ∨ 2147483648 ≤ u32_at file 4 ∨ u32_at file 8 = 0
        ∨ 2147483648 ≤ u32_at file 8 ∨ u32_at file 12 = 0 ∨ 2147483648 ≤ u32_at file 12)) ∧
    (∀ images g', read_images w name g = .ok (images, g') →
      g'.num_images = (u32_at file 4 : Int) ∧ g'.height = (u32_at file 8 : Int)
        ∧ g'.width = (u32_at file 12 : Int)) := by
  rw [read_images_of_lookup w name file g hfile]
  have hn := signed_nonpos_iff _ (u32_at_lt file 4)
  have hh := signed_nonpos_iff _ (u32_at_lt file 8)
  have hw := signed_nonpos_iff _ (u32_at_lt file 12)
  by_cases hbad : wrap32 (u32_at file 4 : Int) ≤ 0 ∨ wrap32 (u32_at file 8 : Int) ≤ 0
      ∨ wrap32 (u32_at file 12 : Int) ≤ 0
  · rw [read_images_stream_invalid file g h16 hm hbad]
    refine ⟨⟨fun _ => by omega, fun _ => rfl⟩, fun images g' h => by cases h⟩
  · have e4 := signed_pos_eq (u32_at file 4) (by omega) (by omega)
    have e8 := signed_pos_eq (u32_at file 8) (by omega) (by omega)
    have e12 := signed_pos_eq (u32_at file 12) (by omega) (by omega)
    cases hb : read_block (wrap32 (wrap32 (wrap32 (u32_at file 4 : Int)
        * wrap32 (u32_at file 8 : Int)) * wrap32 (u32_at file 12 : Int))) (file.drop 16) with
    | error e =>
      rw [read_images_stream_block_error file g h16 hm (by omega) (by omega) (by omega) e hb]
      refine ⟨⟨fun h => ?_, fun h => by omega⟩, fun images g' h => by cases h⟩
      rcases read_block_error_kinds _ _ _ hb with he | he <;> subst he <;> cases h
    | ok images =>
      rw [read_images_stream_block_ok file g h16 hm (by omega) (by omega) (by omega) images hb]
      refine ⟨⟨fun h => (by cases h), fun h => (by omega)⟩, fun images' g' h => ?_⟩
      injection h with h
      injection h with _ h
      subst h
      exact ⟨e4, e8, e12⟩

/-- C9, witness: the image file of the example. -/
theorem read_images_invalid_header_iff_witness :
    example_world.files.lookup (ascii "images") = some example_images_file ∧
    16 ≤ example_images_file.length ∧ u32_at example_images_file 0 = 2051 ∧
    ((read_images example_world (ascii "images") Globals.init = .error .InvalidHeaderError ↔
      (u32_at example_images_file 4 = 0 ∨ 2147483648 ≤ u32_at example_images_file 4
        ∨ u32_at example_images_file 8 = 0 ∨ 2147483648 ≤ u32_at example_images_file 8
        ∨ u32_at example_images_file 12 = 0 ∨ 2147483648 ≤ u32_at example_images_file 12)) ∧
    (∀ images g', read_images example_world (ascii "images") Globals.init = .ok (images, g') →
      g'.num_images = (u32_at example_images_file 4 : Int)
        ∧ g'.height = (u32_at example_images_file 8 : Int)
        ∧ g'.width = (u32_at example_images_file 12 : Int))) :=
  ⟨by decide, by decide, by decide,
    read_images_invalid_header_iff example_world (ascii "images") example_images_file
      Globals.init (by decide) (by decide) (by decide)⟩

/-! ## What a successful read tells about the file -/

theorem read_block_ok_inv (n : Int) (file out : List UInt8) (h : read_block n file = .ok out) :
    0 ≤ n ∧ n ≤ file.length ∧ out = file.take n.toNat := by
  unfold read_block at h
  split at h
  · split at h <;> cases h
  · dsimp only at h
    split at h
    · cases h
    · rename_i hn hlen
      injection h with h
      have hl : ((file.take n.toNat).length : Int) = n := by
        by_contra hc; exact hlen hc
      rw [List.length_take] at hl
      exact ⟨by omega, by omega, h.symm⟩

theorem read_labels_stream_ok_inv (file : List UInt8) (g : Globals) (labels : List UInt8)
    (g' : Globals) (h : read_labels_stream file g = .ok (labels, g')) :
    8 ≤ file.length ∧ u32_at file 0 = 2049 ∧
      read_block (wrap32 (u32_at file 4 : Int)) (file.drop 8) = .ok labels ∧
      g' = { g with num_labels := wrap32 (u32_at file 4 : Int) } := by
  by_cases h4 : file.length < 4
  · rw [read_labels_stream_short file g h4] at h; cases h
  · by_cases hm : u32_at file 0 = 2049
    · by_cases h8 : file.length < 8
      · rw [read_labels_stream_header_short file g (by omega) hm h8] at h; cases h
      · cases hb : read_block (wrap32 (u32_at file 4 : Int)) (file.drop 8) with
        | error e =>
          rw [read_labels_stream_block_error file g (by omega) hm e hb] at h; cases h
        | ok out =>
          rw [read_labels_stream_block_ok file g (by omega) hm out hb] at h
          injection h with h
          injection h with h1 h2
          subst h1
          exact ⟨by omega, hm, rfl, h2.symm⟩
    · rw [read_labels_stream_bad_magic file g (by omega) hm] at h; cases h

theorem read_images_stream_ok_inv (file : List UInt8) (g : Globals) (images : List UInt8)
    (g' : Globals) (h : read_images_stream file g = .ok (images, g')) :
    16 ≤ file.length ∧ u32_at file 0 = 2051 ∧
      0 < wrap32 (u32_at file 4 : Int) ∧ 0 < wrap32 (u32_at file 8 : Int) ∧
      0 < wrap32 (u32_at file 12 : Int) ∧
      read_block (wrap32 (wrap32 (wrap32 (u32_at file 4 : Int) * wrap32 (u32_at file 8 : Int))
        * wrap32 (u32_at file 12 : Int))) (file.drop 16) = .ok images ∧
      g' = { g with num_images := wrap32 (u32_at file 4 : Int),
                    height := wrap32 (u32_at file 8 : Int),
                    width := wrap32 (u32_at file 12 : Int) } := by
  by_cases h4 : file.length < 4
  · rw [read_images_stream_short file g h4] at h; cases h
  · by_cases hm : u32_at file 0 = 2051
    · by_cases h16 : file.length < 16
      · rw [read_images_stream_header_short file g (by omega) hm h16] at h; cases h
      · by_cases hbad : wrap32 (u32_at file 4 : Int) ≤ 0 ∨ wrap32 (u32_at file 8 : Int) ≤ 0
            ∨ wrap32 (u32_at file 12 : Int) ≤ 0
        · rw [read_images_stream_invalid file g (by omega) hm hbad] at h; cases h
        · cases hb : read_block (wrap32 (wrap32 (wrap32 (u32_at file 4 : Int)
              * wrap32 (u32_at file 8 : Int)) * wrap32 (u32_at file 12 : Int))) (file.drop 16) with
          | error e =>
            rw [read_images_stream_block_error file g (by omega) hm (by omega) (by omega)
              (by omega) e hb] at h
            cases h
          | ok out =>
            rw [read_images_stream_block_ok file g (by omega) hm (by omega) (by omega)
              (by omega) out hb] at h
            injection h with h
            injection h with h1 h2
            subst h1
            exact ⟨by omega, hm, by omega, by omega, by omega, rfl, h2.symm⟩
    · rw [read_images_stream_bad_magic file g (by omega) hm] at h; cases h

theorem read_labels_ok_lookup (w : World) (name : CStr) (g : Globals)
    (r : List UInt8 × Globals) (h : read_labels w name g = .ok r) :
    ∃ file, w.files.lookup name = some file ∧ read_labels_stream file g = .ok r := by
  unfold read_labels at h
  split at h
  · cases h
  · rename_i file hf; exact ⟨file, hf, h⟩

theorem read_images_ok_lookup (w : World) (name : CStr) (g : Globals)
    (r : List UInt8 × Globals) (h : read_images w name g = .ok r) :
    ∃ file, w.files.lookup name = some file ∧ read_images_stream file g = .ok r := by
  unfold read_images at h
  split at h
  · cases h
  · rename_i file hf; exact ⟨file, hf, h⟩

theorem read_images_keeps_num_labels (w : World) (name : CStr) (g : Globals)
    (images : List UInt8) (g' : Globals) (h : read_images w name g = .ok (images, g')) :
    g'.num_labels = g.num_labels := by
  obtain ⟨file, _, hs⟩ := read_images_ok_lookup w name g _ h
  obtain ⟨_, _, _, _, _, _, hg⟩ := read_images_stream_ok_inv file g images g' hs
  rw [hg]

/-! ## Claims about magic numbers and the consistency check -/

/-- C6: `read_labels` stops with the bad-magic error exactly when the file has at least four
bytes and its first big-endian word is not 2049; `read_images` does so exactly when the file
has at least four bytes and its first word is not 2051; and a run whose first argument is a
file that `read_images` accepts and whose second argument is a file that `read_labels` accepts
(the two arguments swapped) stops with the bad-magic error, exit status 1, and leaves the file
system as it found it: no directory made, no file written. -/
theorem bad_magic_iff_and_swapped_arguments (w : World) :
    (∀ (name : CStr) (file : List UInt8) (g : Globals), w.files.lookup name = some file →
      (read_labels w name g = .error .BadMagicError ↔
        4 ≤ file.length ∧ u32_at file 0 ≠ 2049)) ∧
    (∀ (name : CStr) (file : List UInt8) (g : Globals), w.files.lookup name = some file →
      (read_images w name g = .error .BadMagicError ↔
        4 ≤ file.length ∧ u32_at file 0 ≠ 2051)) ∧
    (∀ (env : Env) (labels_file images_file output_dir : CStr) (g1 g2 : Globals)
        (r1 r2 : List UInt8 × Globals),
      read_labels w labels_file g1 = .ok r1 → read_images w images_file g2 = .ok r2 →
      main env w [images_file, labels_file, output_dir]
        = { status := 1, error := some .BadMagicError, world := w }) := by
  refine ⟨fun name file g hf => ?_, fun name file g hf => ?_, ?_⟩
  · rw [read_labels_of_lookup w name file g hf]
    exact read_labels_stream_bad_magic_iff file g
  · rw [read_images_of_lookup w name file g hf]
    exact read_images_stream_bad_magic_iff file g
  · intro env labels_file images_file output_dir g1 g2 r1 r2 _ hi
    obtain ⟨file, hf, hs⟩ := read_images_ok_lookup w images_file g2 r2 hi
    obtain ⟨h4, hm⟩ := read_images_stream_ok_magic file g2 r2 hs
    have hbad : read_labels w images_file Globals.init = .error .BadMagicError := by
      rw [read_labels_of_lookup w images_file file _ hf]
      exact read_labels_stream_bad_magic file _ h4 (by omega)
    rw [main_labels_error env w images_file labels_file output_dir _ hbad]
    rfl

/-- C6, witness: the example of the specification with its two file arguments swapped. -/
theorem bad_magic_iff_and_swapped_arguments_witness :
    read_labels example_world (ascii "labels") Globals.init
        = .ok ([3, 7], { num_labels := 2, num_images := 0, width := 0, height := 0 }) ∧
    read_images example_world (ascii "images") Globals.init
        = .ok ([10, 20, 30, 40, 50, 60, 70, 80],
            { num_labels := 0, num_images := 2, width := 2, height := 2 }) ∧
    main Env.ok example_world [ascii "images", ascii "labels", ascii "outdir"]
        = { status := 1, error := some .BadMagicError, world := example_world } :=
  ⟨by decide, by decide,
    (bad_magic_iff_and_swapped_arguments example_world).2.2 Env.ok (ascii "labels")
      (ascii "images") (ascii "outdir") Globals.init Globals.init _ _
      (by decide : read_labels example_world (ascii "labels") Globals.init
        = .ok ([3, 7], { num_labels := 2, num_images := 0, width := 0, height := 0 }))
      (by decide : read_images example_world (ascii "images") Globals.init
        = .ok ([10, 20, 30, 40, 50, 60, 70, 80],
            { num_labels := 0, num_images := 2, width := 2, height := 2 }))⟩

/-- C5: when both input files are read successfully and the number of labels differs from the
number of images, the run stops with the consistency error and exit status 1, whatever the
output directory argument is, and leaves the file system as it found it: it writes no file
and makes no directory. -/
theorem count_mismatch_stops_before_output (env : Env) (w : World)
    (labels_file images_file output_dir : CStr) (labels images : List UInt8) (g1 g2 : Globals)
    (hl : read_labels w labels_file Globals.init = .ok (labels, g1))
    (hi : read_images w images_file g1 = .ok (images, g2))
    (hne : g1.num_labels ≠ g2.num_images) :
    main env w [labels_file, images_file, output_dir]
      = { status := 1, error := some .ConsistencyError, world := w } := by
  have hk := read_images_keeps_num_labels w images_file g1 images g2 hi
  exact main_count_mismatch env w labels_file images_file output_dir labels images g1 g2 hl hi
    (by rw [hk]; exact fun h => hne h.symm)

/-- C5, witness: one label against two images, with an output directory that does not exist. -/
theorem count_mismatch_stops_before_output_witness :
    read_labels mismatch_world (ascii "labels") Globals.init
        = .ok ([3], { num_labels := 1, num_images := 0, width := 0, height := 0 }) ∧
    read_images mismatch_world (ascii "images")
          { num_labels := 1, num_images := 0, width := 0, height := 0 }
        = .ok ([10, 20, 30, 40, 50, 60, 70, 80],
            { num_labels := 1, num_images := 2, width := 2, height := 2 }) ∧
    main Env.ok mismatch_world [ascii "labels", ascii "images", ascii "nowhere"]
        = { status := 1, error := some .ConsistencyError, world := mismatch_world } :=
  ⟨by decide, by decide,
    count_mismatch_stops_before_output Env.ok mismatch_world (ascii "labels") (ascii "images")
      (ascii "nowhere") [3] [10, 20, 30, 40, 50, 60, 70, 80]
      { num_labels := 1, num_images := 0, width := 0, height := 0 }
      { num_labels := 1, num_images := 2, width := 2, height := 2 }
      (by decide) (by decide) (by decide)⟩

/-! ## Facts about `write_pgm_image` -/

theorem write_pgm_image_mkdir_fails (env : Env) (g : Globals) (w : World)
    (directory filename : CStr) (image : Ptr) (h1 : isDirectory w directory = false)
    (h2 : env.mkdir_fails directory = true) :
    write_pgm_image env g w directory filename image = (w, some .DirectoryCreateError) := by
  simp [write_pgm_image, h1, h2]

theorem write_pgm_image_too_long (env : Env) (g : Globals) (w : World)
    (directory filename : CStr) (image : Ptr)
    (hdir : isDirectory w directory = true ∨ env.mkdir_fails directory = false)
    (hlen : 255 ≤ (directory ++ filename).length) :
    write_pgm_image env g w directory filename image
      = (w.ensure_dir directory, some .PathTooLongError) := by
  have h0 : (!isDirectory w directory && env.mkdir_fails directory) = false := by
    rcases hdir with h | h <;> simp [h]
  rw [List.length_append] at hlen
  unfold write_pgm_image
  simp only [h0, Bool.false_eq_true, if_false, MAX_PATH, ge_iff_le]
  by_cases hd : 255 ≤ directory.length
  · simp only [hd, if_true]
  · simp only [hd, if_false, hlen, if_true]

theorem write_pgm_image_fopen_fails (env : Env) (g : Globals) (w : World)
    (directory filename : CStr) (image : Ptr)
    (hdir : isDirectory w directory = true ∨ env.mkdir_fails directory = false)
    (hlen : (directory ++ filename).length < 255)
    (hopen : env.fopen_fails (directory ++ filename) = true) :
    write_pgm_image env g w directory filename image
      = (w.ensure_dir directory, some .FileOpenError) := by
  have h0 : (!isDirectory w directory && env.mkdir_fails directory) = false := by
    rcases hdir with h | h <;> simp [h]
  rw [List.length_append] at hlen
  have hd : ¬ 255 ≤ directory.length := by omega
  have hf : ¬ 255 ≤ directory.length + filename.length := by omega
  unfold write_pgm_image
  simp only [h0, Bool.false_eq_true, if_false, MAX_PATH, ge_iff_le, hd, hf, hopen, if_true]

/-- The call once the path checks and `fopen` are passed: what `fwrite` does decides. -/
theorem write_pgm_image_opened (env : Env) (g : Globals) (w : World)
    (directory filename : CStr) (image : Ptr)
    (hdir : isDirectory w directory = true ∨ env.mkdir_fails directory = false)
    (hlen : (directory ++ filename).length < 255)
    (hopen : env.fopen_fails (directory ++ filename) = false) :
    write_pgm_image env g w directory filename image =
      if size_t_of_int (wrap32 (g.width * g.height)) > image.avail.length then
        ((w.ensure_dir directory).store (directory ++ filename) [], some .MemoryFault)
      else if min (env.fwrite_accepts (directory ++ filename)
          (size_t_of_int (wrap32 (g.width * g.height))))
          (size_t_of_int (wrap32 (g.width * g.height)))
          ≠ size_t_of_int (wrap32 (g.width * g.height)) then
        ((w.ensure_dir directory).store (directory ++ filename)
          (pgm_header g ++ image.avail.take (min (env.fwrite_accepts (directory ++ filename)
            (size_t_of_int (wrap32 (g.width * g.height))))
            (size_t_of_int (wrap32 (g.width * g.height))))), some .ImageWriteError)
      else
        ((w.ensure_dir directory).store (directory ++ filename)
          (pgm_header g ++ image.avail.take (min (env.fwrite_accepts (directory ++ filename)
            (size_t_of_int (wrap32 (g.width * g.height))))
            (size_t_of_int (wrap32 (g.width * g.height))))), none) := by
  have h0 : (!isDirectory w directory && env.mkdir_fails directory) = false := by
    rcases hdir with h | h <;> simp [h]
  rw [List.length_append] at hlen
  have hd : ¬ 255 ≤ directory.length := by omega
  have hf : ¬ 255 ≤ directory.length + filename.length := by omega
  unfold write_pgm_image
  simp only [h0, Bool.false_eq_true, if_false, MAX_PATH, ge_iff_le, hd, hf, hopen]

theorem ensure_dir_written (w : World) (path : CStr) :
    (w.ensure_dir path).written = w.written := by
  unfold World.ensure_dir World.mkdir
  split <;> rfl

theorem store_written (w : World) (path : CStr) (content : List UInt8) :
    (w.store path content).written = w.written ++ [(path, content)] := rfl

/-! ## The claim about the path length -/

set_option maxRecDepth 100000 in
/-- C10 (as stated it fails): a directory of 245 bytes and the file name `image0.pgm` compose
to a path of exactly 255 bytes, which is not longer than 255, yet `write_pgm_image` stops with
the path-too-long error. -/
theorem path_of_255_bytes_is_rejected :
    (write_pgm_image Env.ok { num_labels := 1, num_images := 1, width := 2, height := 2 }
        long_directory_world long_directory (ascii "image0.pgm")
        { buf := [1, 2, 3, 4], off := 0 }).2 = some .PathTooLongError ∧
      (long_directory ++ ascii "image0.pgm").length = 255 := by
  decide

/-- C10 (amended): once the directory exists or has been made, `write_pgm_image` stops with the
path-too-long error exactly when the composed path `directory ++ filename` is 255 bytes or
longer (the 255-byte buffer also holds the terminating NUL); and for every directory and file
name whose concatenation is at most 254 bytes long the path check passes and, `fopen`
succeeding, the file that the call writes is the one at exactly the concatenated path. -/
theorem path_too_long_iff (env : Env) (g : Globals) (w : World) (directory filename : CStr)
    (image : Ptr)
    (hdir : isDirectory w directory = true ∨ env.mkdir_fails directory = false) :
    ((write_pgm_image env g w directory filename image).2 = some .PathTooLongError ↔
      255 ≤ (directory ++ filename).length) ∧
    ((directory ++ filename).length ≤ 254 → env.fopen_fails (directory ++ filename) = false →
      ∃ content, (write_pgm_image env g w directory filename image).1.written
        = w.written ++ [(directory ++ filename, content)]) := by
  by_cases hlen : 255 ≤ (directory ++ filename).length
  · rw [write_pgm_image_too_long env g w directory filename image hdir hlen]
    exact ⟨⟨fun _ => hlen, fun _ => rfl⟩, fun h => absurd h (by omega)⟩
  · by_cases hopen : env.fopen_fails (directory ++ filename) = true
    · rw [write_pgm_image_fopen_fails env g w directory filename image hdir (by omega) hopen]
      refine ⟨⟨fun h => ?_, fun h => absurd h hlen⟩, fun _ h => ?_⟩
      · cases h
      · rw [hopen] at h; cases h
    · have hopen' : env.fopen_fails (directory ++ filename) = false := by
        cases hf : env.fopen_fails (directory ++ filename)
        · rfl
        · exact absurd hf hopen
      rw [write_pgm_image_opened env g w directory filename image hdir (by omega) hopen']
      split_ifs
      · refine ⟨⟨fun h => ?_, fun h => absurd h hlen⟩, fun _ _ => ?_⟩
        · cases h
        · simp only [store_written, ensure_dir_written]
          exact ⟨_, rfl⟩
      · refine ⟨⟨fun h => ?_, fun h => absurd h hlen⟩, fun _ _ => ?_⟩
        · cases h
        · simp only [store_written, ensure_dir_written]
          exact ⟨_, rfl⟩
      · refine ⟨⟨fun h => ?_, fun h => absurd h hlen⟩, fun _ _ => ?_⟩
        · cases h
        · simp only [store_written, ensure_dir_written]
          exact ⟨_, rfl⟩

/-- C10, witness: the first sample of the example of the specification. -/
theorem path_too_long_iff_witness :
    (isDirectory example_world (ascii "outdir/3/") = true
      ∨ Env.ok.mkdir_fails (ascii "outdir/3/") = false) ∧
    (((write_pgm_image Env.ok { num_labels := 2, num_images := 2, width := 2, height := 2 }
        example_world (ascii "outdir/3/") (ascii "image0.pgm")
        { buf := [10, 20, 30, 40], off := 0 }).2 = some .PathTooLongError ↔
      255 ≤ (ascii "outdir/3/" ++ ascii "image0.pgm").length) ∧
    ((ascii "outdir/3/" ++ ascii "image0.pgm").length ≤ 254 →
      Env.ok.fopen_fails (ascii "outdir/3/" ++ ascii "image0.pgm") = false →
      ∃ content,
        (write_pgm_image Env.ok { num_labels := 2, num_images := 2, width := 2, height := 2 }
          example_world (ascii "outdir/3/") (ascii "image0.pgm")
          { buf := [10, 20, 30, 40], off := 0 }).1.written
        = example_world.written ++ [(ascii "outdir/3/" ++ ascii "image0.pgm", content)])) :=
  ⟨Or.inr rfl,
    path_too_long_iff Env.ok { num_labels := 2, num_images := 2, width := 2, height := 2 }
      example_world (ascii "outdir/3/") (ascii "image0.pgm")
      { buf := [10, 20, 30, 40], off := 0 } (Or.inr rfl)⟩

/-! ## Decimal printing and reading -/

theorem digitChar_toNat (d : Nat) (h : d < 10) : (digitChar d).toNat = 48 + d := by
  have : (digitChar d).toNat = (48 + d) % 256 := rfl
  omega

theorem is_digit_digitChar (d : Nat) (h : d < 10) : is_digit (digitChar d) = true := by
  unfold is_digit
  rw [digitChar_toNat d h]
  exact decide_eq_true ⟨by omega, by omega⟩

theorem revDigits_all_digits (fuel n : Nat) : ∀ b ∈ revDigits fuel n, is_digit b = true := by
  induction fuel generalizing n with
  | zero => intro b hb; simp [revDigits] at hb
  | succ fuel ih =>
    intro b hb
    rw [revDigits] at hb
    rcases List.mem_cons.mp hb with h | h
    · rw [h]; exact is_digit_digitChar _ (Nat.mod_lt _ (by omega))
    · split at h
      · simp at h
      · exact ih _ b h

theorem revDigits_value (fuel n : Nat) (h : n < fuel) :
    (revDigits fuel n).foldr (fun d acc => 10 * acc + (d.toNat - 48)) 0 = n := by
  induction fuel generalizing n with
  | zero => omega
  | succ fuel ih =>
    rw [revDigits, List.foldr_cons, digitChar_toNat _ (Nat.mod_lt _ (by omega))]
    split
    · rw [List.foldr_nil]; omega
    · rw [ih (n / 10) (by omega)]; omega

theorem decimal_ne_nil (n : Nat) : decimal n ≠ [] := by
  unfold decimal
  rw [revDigits]
  simp

theorem decimal_all_digits (n : Nat) : ∀ b ∈ decimal n, is_digit b = true := by
  intro b hb
  unfold decimal at hb
  exact revDigits_all_digits _ _ b (List.mem_reverse.mp hb)

theorem digits_value_decimal (n : Nat) : digits_value (decimal n) = n := by
  unfold digits_value decimal
  rw [List.foldl_reverse]
  exact revDigits_value (n + 1) n (by omega)

/-- Reading back a printed number that is followed by a byte that is not a digit. -/
theorem read_number_decimal (n : Nat) (c : UInt8) (rest : List UInt8)
    (hc : is_digit c = false) :
    read_number (decimal n ++ c :: rest) = some (n, c :: rest) := by
  have ht : (decimal n ++ c :: rest).takeWhile is_digit = decimal n := by
    rw [List.takeWhile_append_of_pos (decimal_all_digits n), List.takeWhile_cons, hc]
    simp
  have hd : (decimal n ++ c :: rest).dropWhile is_digit = c :: rest := by
    rw [List.dropWhile_append_of_pos (decimal_all_digits n), List.dropWhile_cons, hc]
    simp
  unfold read_number
  rw [ht, hd, digits_value_decimal]
  have hne := decimal_ne_nil n
  cases hdn : decimal n with
  | nil => exact absurd hdn hne
  | cons a l => simp

theorem fmt_d_natCast (n : Nat) : fmt_d (n : Int) = decimal n := by
  unfold fmt_d
  rw [if_neg (by omega), Int.toNat_ofNat]

theorem pgm_header_eq (g : Globals) (width height : Nat) (hw : g.width = width)
    (hh : g.height = height) :
    pgm_header g = 80 :: 53 :: 32 :: (decimal width ++ 32 :: (decimal height ++ 32 ::
      (decimal 255 ++ [10]))) := by
  have h255 : fmt_d MAX_GRAY = decimal 255 := fmt_d_natCast 255
  have hP : PGM_MAGIC = [80, 53] := by decide
  have hs : ascii " " = [32] := by decide
  have hn : ascii "\n" = [10] := by decide
  unfold pgm_header
  rw [hw, hh, fmt_d_natCast, fmt_d_natCast, h255, hP, hs, hn]
  simp

/-- The header that the program prints, followed by any payload, reads back as the width, the
height, the maximum gray value 255 and that payload. -/
theorem spec_pgm_parse_header (g : Globals) (width height : Nat) (hw : g.width = width)
    (hh : g.height = height) (payload : List UInt8) :
    spec_pgm_parse (pgm_header g ++ payload) = some (width, height, 255, payload) := by
  have h32 : is_digit 32 = false := by decide
  have h10 : is_digit 10 = false := by decide
  have e : pgm_header g ++ payload = 80 :: 53 :: 32 :: (decimal width ++ 32 ::
      (decimal height ++ 32 :: (decimal 255 ++ 10 :: payload))) := by
    rw [pgm_header_eq g width height hw hh]
    simp
  rw [e]
  simp only [spec_pgm_parse, expect_byte, if_true, read_number_decimal _ _ _ h32,
    read_number_decimal _ _ _ h10]

/-! ## The round trip of `write_pgm_image` -/

theorem size_t_of_small (k : Nat) (h : k < 2147483648) : size_t_of_int (wrap32 (k : Int)) = k := by
  rw [wrap32_of_lt _ (by omega) (by omega)]
  unfold size_t_of_int
  omega

theorem avail_at_start (block : List UInt8) : ({ buf := block, off := 0 } : Ptr).avail = block := by
  simp [Ptr.avail]

theorem store_lookup (w : World) (path : CStr) (content : List UInt8) :
    (w.store path content).files.lookup path = some content := by
  simp [World.store, List.lookup]

/-- The round trip where the pixel count is not affected by the overflow: for every width and
height greater than zero whose product is less than `2^31` and every pixel block of
`width * height` bytes, when the directory exists or can be made, the composed path is shorter than 255 bytes,
the file can be opened and `fwrite` accepts all the bytes, `write_pgm_image` succeeds, and
reading the file it wrote as PGM yields the same width, the same height, the maximum gray
value 255 and a payload that is byte for byte the block, with nothing after it. -/
theorem write_then_parse_round_trip (env : Env) (g : Globals) (w : World)
    (directory filename : CStr) (block : List UInt8) (width height : Nat)
    (hw : g.width = width) (hh : g.height = height) (_hwpos : 0 < width) (_hhpos : 0 < height)
    (hsmall : width * height < 2147483648) (hblock : block.length = width * height)
    (hdir : isDirectory w directory = true ∨ env.mkdir_fails directory = false)
    (hlen : (directory ++ filename).length < 255)
    (hopen : env.fopen_fails (directory ++ filename) = false)
    (hwrite : width * height ≤ env.fwrite_accepts (directory ++ filename) (width * height)) :
    ∃ content,
      write_pgm_image env g w directory filename { buf := block, off := 0 }
        = ((w.ensure_dir directory).store (directory ++ filename) content, none) ∧
      ((w.ensure_dir directory).store (directory ++ filename) content).files.lookup
        (directory ++ filename) = some content ∧
      spec_pgm_parse content = some (width, height, 255, block) := by
  have hcount : size_t_of_int (wrap32 (g.width * g.height)) = width * height := by
    rw [hw, hh, ← Int.ofNat_mul]
    exact size_t_of_small _ hsmall
  refine ⟨pgm_header g ++ block, ?_, store_lookup _ _ _, spec_pgm_parse_header g width height hw hh block⟩
  rw [write_pgm_image_opened env g w directory filename _ hdir hlen hopen, hcount,
    avail_at_start, Nat.min_eq_right hwrite, hblock, ← hblock, List.take_length]
  simp

/-- The round trip of the first image of the example of the specification. -/
theorem write_then_parse_round_trip_witness :
    ∃ content,
      write_pgm_image Env.ok { num_labels := 2, num_images := 2, width := 2, height := 2 }
          example_world (ascii "outdir/3/") (ascii "image0.pgm")
          { buf := [10, 20, 30, 40], off := 0 }
        = ((example_world.ensure_dir (ascii "outdir/3/")).store
            (ascii "outdir/3/" ++ ascii "image0.pgm") content, none) ∧
      ((example_world.ensure_dir (ascii "outdir/3/")).store
          (ascii "outdir/3/" ++ ascii "image0.pgm") content).files.lookup
        (ascii "outdir/3/" ++ ascii "image0.pgm") = some content ∧
      spec_pgm_parse content = some (2, 2, 255, [10, 20, 30, 40]) :=
  write_then_parse_round_trip Env.ok { num_labels := 2, num_images := 2, width := 2, height := 2 }
    example_world (ascii "outdir/3/") (ascii "image0.pgm") [10, 20, 30, 40] 2 2 rfl rfl
    (by decide) (by decide) (by decide) (by decide) (Or.inr rfl) (by decide) rfl (by decide)

/-! ## A well-formed image file -/

theorem wrap32_product (n h wd : Nat) (hwd : 0 < wd) (hsmall : n * h * wd < 2147483648) :
    wrap32 (wrap32 ((n : Int) * (h : Int)) * (wd : Int)) = ((n * h * wd : Nat) : Int) := by
  have h1 : n * h ≤ n * h * wd := Nat.le_mul_of_pos_right _ hwd
  have e1 : wrap32 ((n : Int) * (h : Int)) = ((n * h : Nat) : Int) := by
    rw [← Nat.cast_mul]
    exact wrap32_of_lt _ (Int.ofNat_nonneg _) (by exact_mod_cast (by omega : n * h < 2147483648))
  rw [e1, ← Nat.cast_mul]
  exact wrap32_of_lt _ (Int.ofNat_nonneg _) (by exact_mod_cast hsmall)

/-- An image file with positive header words whose product fits an `int` and with its whole
payload present is read as the specification says. -/
theorem read_images_stream_valid (file : List UInt8) (g : Globals) (h16 : 16 ≤ file.length)
    (hm : u32_at file 0 = 2051) (hn : 0 < u32_at file 4) (hh : 0 < u32_at file 8)
    (hw : 0 < u32_at file 12)
    (hsmall : u32_at file 4 * u32_at file 8 * u32_at file 12 < 2147483648)
    (hlen : 16 + u32_at file 4 * u32_at file 8 * u32_at file 12 ≤ file.length) :
    read_images_stream file g =
      .ok ((file.drop 16).take (u32_at file 4 * u32_at file 8 * u32_at file 12),
        { g with num_images := (u32_at file 4 : Int), height := (u32_at file 8 : Int),
                 width := (u32_at file 12 : Int) }) := by
  have a1 : u32_at file 4 * u32_at file 8 ≤ u32_at file 4 * u32_at file 8 * u32_at file 12 :=
    Nat.le_mul_of_pos_right _ hw
  have a2 : u32_at file 4 ≤ u32_at file 4 * u32_at file 8 := Nat.le_mul_of_pos_right _ hh
  have a3 : u32_at file 12 ≤ u32_at file 4 * u32_at file 8 * u32_at file 12 :=
    Nat.le_mul_of_pos_left _ (by omega)
  have a4 : u32_at file 8 ≤ u32_at file 4 * u32_at file 8 := Nat.le_mul_of_pos_left _ hn
  have e4 := signed_pos_eq (u32_at file 4) hn (by omega)
  have e8 := signed_pos_eq (u32_at file 8) hh (by omega)
  have e12 := signed_pos_eq (u32_at file 12) hw (by omega)
  have hprod := wrap32_product _ _ _ hw hsmall
  have hb : read_block (wrap32 (wrap32 (wrap32 (u32_at file 4 : Int) * wrap32 (u32_at file 8 : Int))
      * wrap32 (u32_at file 12 : Int))) (file.drop 16)
      = .ok ((file.drop 16).take (u32_at file 4 * u32_at file 8 * u32_at file 12)) := by
    rw [e4, e8, e12, hprod]
    generalize u32_at file 4 * u32_at file 8 * u32_at file 12 = total at hlen ⊢
    rw [read_block_of_le _ _ (by omega) (by simp; omega), Int.toNat_ofNat]
  rw [read_images_stream_block_ok file g h16 hm (by omega) (by omega) (by omega) _ hb,
    e4, e8, e12]

/-! ## One iteration of the loop -/

theorem avail_at_offset (images : List UInt8) (m : Nat) (h : m ≤ images.length) :
    ({ buf := images, off := (m : Int) } : Ptr).avail = images.drop m := by
  unfold Ptr.avail
  dsimp only
  rw [if_pos ⟨by omega, by omega⟩, Int.toNat_ofNat]

/-- Writing sample `j` of a buffer that holds at least `j + 1` images: the call succeeds and
stores the header followed by the bytes of the sample. -/
theorem write_pgm_image_sample (env : Env) (g : Globals) (w : World)
    (directory filename images : List UInt8) (width height j : Nat)
    (hgw : g.width = width) (hgh : g.height = height) (hhpos : 0 < height)
    (hfit : (j + 1) * (width * height) ≤ images.length)
    (hsmall : (j + 1) * (width * height) < 2147483648)
    (hdir : isDirectory w directory = true ∨ env.mkdir_fails directory = false)
    (hlen : (directory ++ filename).length < 255)
    (hopen : env.fopen_fails (directory ++ filename) = false)
    (hwr : ∀ p n, env.fwrite_accepts p n = n) :
    write_pgm_image env g w directory filename
        { buf := images, off := wrap32 (wrap32 ((j : Int) * g.width) * g.height) }
      = ((w.ensure_dir directory).store (directory ++ filename)
          (pgm_header g ++ (images.drop (j * (width * height))).take (width * height)), none) := by
  have hs : (j + 1) * (width * height) = j * (width * height) + width * height :=
    Nat.succ_mul _ _
  have h1 : j * width ≤ j * width * height := Nat.le_mul_of_pos_right _ hhpos
  have h2 : j * width * height = j * (width * height) := Nat.mul_assoc _ _ _
  have hoff : wrap32 (wrap32 ((j : Int) * g.width) * g.height)
      = ((j * (width * height) : Nat) : Int) := by
    rw [hgw, hgh, wrap32_product j width height hhpos (by omega), h2]
  have hcount : size_t_of_int (wrap32 (g.width * g.height)) = width * height := by
    rw [hgw, hgh, ← Nat.cast_mul]
    exact size_t_of_small _ (by omega)
  have hav : (images.drop (j * (width * height))).length = images.length - j * (width * height) :=
    List.length_drop _ _
  rw [write_pgm_image_opened env g w directory filename _ hdir hlen hopen, hoff, hcount,
    avail_at_offset images _ (by omega), hwr, Nat.min_self, if_neg (by omega),
    if_neg (by simp)]

/-! ## The loop of `main` -/

/-- The loop over `k` samples from index `i` on, when every sample fits the buffers and the
path limit and the operating system refuses nothing: it ends without error and has written
exactly the files of the samples `i`, ..., `i + k - 1`, in this order. -/
theorem convert_loop_ok (env : Env) (g : Globals) (labels images : List UInt8)
    (output_dir : CStr) (width height : Nat) (hgw : g.width = width) (hgh : g.height = height)
    (hhpos : 0 < height) (hmk : ∀ p, env.mkdir_fails p = false)
    (hop : ∀ p, env.fopen_fails p = false) (hwr : ∀ p n, env.fwrite_accepts p n = n) :
    ∀ (k i : Nat) (w : World), i + k ≤ labels.length →
      (i + k) * (width * height) ≤ images.length →
      (i + k) * (width * height) < 2147483648 →
      (∀ j, i ≤ j → j < i + k → (sample_path output_dir (labels.getD j 0) j).length < 255) →
      ∃ w', convert_loop env g labels images output_dir k i w = (w', none) ∧
        w'.written = w.written ++ (List.range' i k).map (fun j =>
          (sample_path output_dir (labels.getD j 0) j,
            pgm_header g ++ (images.drop (j * (width * height))).take (width * height))) := by
  intro k
  induction k with
  | zero =>
    intro i w _ _ _ _
    exact ⟨w, rfl, by simp⟩
  | succ k ih =>
    intro i w hlab himg hsmall hpath
    have hi : i < labels.length := by omega
    have hget : labels.get? i = some (labels.getD i 0) := by
      rw [List.get?_eq_getElem?, List.getElem?_eq_getElem hi, List.getD_eq_getElem _ _ hi]
    have hp := hpath i (Nat.le_refl _) (by omega)
    unfold sample_path at hp
    have hp' := hp
    rw [List.length_append] at hp'
    have hd : ¬ 255 ≤ (output_dir ++ ascii "/" ++ fmt_d ((labels.getD i 0).toNat : Int)
        ++ ascii "/").length := by omega
    have hf : ¬ 255 ≤ (ascii "image" ++ fmt_d (i : Int) ++ ascii ".pgm").length := by omega
    have hmono : (i + 1) * (width * height) ≤ (i + (k + 1)) * (width * height) :=
      Nat.mul_le_mul_right _ (by omega)
    have hres := write_pgm_image_sample env g w
      (output_dir ++ ascii "/" ++ fmt_d ((labels.getD i 0).toNat : Int) ++ ascii "/")
      (ascii "image" ++ fmt_d (i : Int) ++ ascii ".pgm") images width height i hgw hgh hhpos
      (by omega) (by omega) (Or.inr (hmk _)) hp (hop _) hwr
    have e1 : i + (k + 1) = i + 1 + k := by omega
    obtain ⟨w', hloop, hwritten⟩ := ih (i + 1) _ (by omega) (by rw [← e1]; exact himg)
      (by rw [← e1]; exact hsmall) (fun j h1 h2 => hpath j (by omega) (by omega))
    refine ⟨w', ?_, ?_⟩
    · rw [convert_loop]
      simp only [hget, MAX_PATH, ge_iff_le, hd, hf, if_false, hres]
      exact hloop
    · rw [hwritten, store_written, ensure_dir_written, List.range'_succ, List.map_cons,
        List.append_assoc]
      rfl

/-! ## The whole run -/

theorem pgm_header_eq_spec (g : Globals) (width height : Nat) (hw : g.width = width)
    (hh : g.height = height) : pgm_header g = spec_header width height := by
  have h1 : ascii "P5 " = [80, 53, 32] := by decide
  have h2 : ascii " " = [32] := by decide
  have h3 : ascii " 255\n" = [32, 50, 53, 53, 10] := by decide
  have h4 : decimal 255 = [50, 53, 53] := by decide
  rw [pgm_header_eq g width height hw hh]
  unfold spec_header
  rw [h1, h2, h3, h4]
  simp

theorem getD_take_drop (file : List UInt8) (a c j : Nat) (hj : j < c) :
    ((file.drop a).take c).getD j 0 = file.getD (a + j) 0 := by
  rw [List.getD_eq_getElem?_getD, List.getD_eq_getElem?_getD, List.getElem?_take, if_pos hj,
    List.getElem?_drop]

theorem slice_take_drop (file : List UInt8) (a total off size : Nat)
    (h : off + size ≤ total) :
    (((file.drop a).take total).drop off).take size = (file.drop (a + off)).take size := by
  rw [List.drop_take, List.take_take, List.drop_drop, Nat.min_eq_left (by omega)]

set_option maxRecDepth 100000 in
/-- C1 (as stated it fails): the two input files of the example are valid, their counts agree
and the output directory, whose name is 250 bytes long, exists; yet the run writes no file:
it stops at the first sample with the path-too-long error and exit status 1. -/
theorem long_output_dir_stops_the_run :
    read_labels long_output_world (ascii "labels") Globals.init
        = .ok ([3, 7], { num_labels := 2, num_images := 0, width := 0, height := 0 }) ∧
    read_images long_output_world (ascii "images")
          { num_labels := 2, num_images := 0, width := 0, height := 0 }
        = .ok ([10, 20, 30, 40, 50, 60, 70, 80],
            { num_labels := 2, num_images := 2, width := 2, height := 2 }) ∧
    isDirectory long_output_world long_output_dir = true ∧
    (main Env.ok long_output_world [ascii "labels", ascii "images", long_output_dir]).error
        = some .PathTooLongError ∧
    (main Env.ok long_output_world [ascii "labels", ascii "images", long_output_dir]).status = 1 ∧
    (main Env.ok long_output_world
        [ascii "labels", ascii "images", long_output_dir]).world.written = [] := by
  decide

/-- C1 (amended): for every pair of valid input files (label file: magic 2049, count, at least
count label bytes; image file: magic 2051, positive header words whose product is less than
`2^31`, at least that many payload bytes) with equal counts and an existing output directory,
when the path of every sample is shorter than 255 bytes and no `mkdir`, `fopen` or `fwrite`
fails, the run ends with status 0 and writes exactly `num_images` files: for every sample
index `i` the file `output_dir/<label i>/image<i>.pgm` with the content
`P5 <width> <height> 255`, newline, and then the bytes `[i*width*height, (i+1)*width*height)`
of the image payload (width the 4th, height the 3rd header word); and no other file. -/
theorem run_writes_every_sample (env : Env) (w : World)
    (labels_file images_file output_dir : CStr) (lfile ifile : List UInt8)
    (hlf : w.files.lookup labels_file = some lfile)
    (hif : w.files.lookup images_file = some ifile)
    (hl8 : 8 ≤ lfile.length) (hlm : u32_at lfile 0 = 2049)
    (hll : 8 + u32_at lfile 4 ≤ lfile.length)
    (hi16 : 16 ≤ ifile.length) (him : u32_at ifile 0 = 2051)
    (hn : 0 < u32_at ifile 4) (hh : 0 < u32_at ifile 8) (hw : 0 < u32_at ifile 12)
    (hsmall : u32_at ifile 4 * u32_at ifile 8 * u32_at ifile 12 < 2147483648)
    (hil : 16 + u32_at ifile 4 * u32_at ifile 8 * u32_at ifile 12 ≤ ifile.length)
    (hcount : u32_at lfile 4 = u32_at ifile 4)
    (hout : isDirectory w output_dir = true)
    (hpath : ∀ i, i < u32_at ifile 4 →
      (sample_path output_dir (lfile.getD (8 + i) 0) i).length < 255)
    (hmk : ∀ p, env.mkdir_fails p = false) (hop : ∀ p, env.fopen_fails p = false)
    (hwr : ∀ p n, env.fwrite_accepts p n = n) :
    ∃ w', main env w [labels_file, images_file, output_dir]
        = { status := 0, error := none, world := w' } ∧
      w'.written = w.written ++ (List.range (u32_at ifile 4)).map (fun i =>
        (sample_path output_dir (lfile.getD (8 + i) 0) i,
          spec_header (u32_at ifile 12) (u32_at ifile 8)
            ++ (ifile.drop (16 + i * (u32_at ifile 12 * u32_at ifile 8))).take
              (u32_at ifile 12 * u32_at ifile 8))) := by
  rw [hcount] at hll
  have hprod : u32_at ifile 4 * u32_at ifile 8 * u32_at ifile 12
      = u32_at ifile 4 * (u32_at ifile 12 * u32_at ifile 8) := by
    rw [Nat.mul_assoc, Nat.mul_comm (u32_at ifile 8)]
  have hnle : u32_at ifile 4 ≤ u32_at ifile 4 * (u32_at ifile 12 * u32_at ifile 8) :=
    Nat.le_mul_of_pos_right _ (Nat.mul_pos hw hh)
  have hnsmall : u32_at ifile 4 < 2147483648 := by rw [hprod] at hsmall; omega
  have hlabels : read_labels w labels_file Globals.init
      = .ok ((lfile.drop 8).take (u32_at ifile 4),
          { num_labels := (u32_at ifile 4 : Int), num_images := 0, width := 0, height := 0 }) := by
    rw [read_labels_of_lookup w labels_file lfile _ hlf,
      read_labels_stream_valid lfile _ hl8 hlm (by omega) (by omega), hcount]
    rfl
  have himages : read_images w images_file
        { num_labels := (u32_at ifile 4 : Int), num_images := 0, width := 0, height := 0 }
      = .ok ((ifile.drop 16).take (u32_at ifile 4 * u32_at ifile 8 * u32_at ifile 12),
          { num_labels := (u32_at ifile 4 : Int), num_images := (u32_at ifile 4 : Int),
            width := (u32_at ifile 12 : Int), height := (u32_at ifile 8 : Int) }) := by
    rw [read_images_of_lookup w images_file ifile _ hif,
      read_images_stream_valid ifile _ hi16 him hn hh hw hsmall hil]
  have hlen_l : ((lfile.drop 8).take (u32_at ifile 4)).length = u32_at ifile 4 := by
    rw [List.length_take, List.length_drop]; omega
  have hlen_i : ((ifile.drop 16).take (u32_at ifile 4 * u32_at ifile 8 * u32_at ifile 12)).length
      = u32_at ifile 4 * (u32_at ifile 12 * u32_at ifile 8) := by
    rw [List.length_take, List.length_drop, ← hprod]; omega
  obtain ⟨w', hloop, hwritten⟩ := convert_loop_ok env
    { num_labels := (u32_at ifile 4 : Int), num_images := (u32_at ifile 4 : Int),
      width := (u32_at ifile 12 : Int), height := (u32_at ifile 8 : Int) }
    ((lfile.drop 8).take (u32_at ifile 4))
    ((ifile.drop 16).take (u32_at ifile 4 * u32_at ifile 8 * u32_at ifile 12))
    output_dir (u32_at ifile 12) (u32_at ifile 8) rfl rfl hh hmk hop hwr (u32_at ifile 4) 0 w
    (by rw [Nat.zero_add, hlen_l]) (by rw [Nat.zero_add, hlen_i])
    (by rw [Nat.zero_add, ← hprod]; exact hsmall)
    (fun j _ h2 => by
      rw [Nat.zero_add] at h2
      rw [getD_take_drop lfile 8 _ j h2]
      exact hpath j h2)
  refine ⟨w', ?_, ?_⟩
  · simp only [main, hlabels, himages, ne_eq, not_true_eq_false, if_false, hout,
      Bool.not_true, Bool.false_eq_true, Int.toNat_ofNat, hloop]
    rfl
  · rw [hwritten, List.range_eq_range']
    congr 1
    apply List.map_congr_left
    intro j hj
    have hj' : j < u32_at ifile 4 := by
      have := (List.mem_range'_1.mp hj).2
      omega
    have hslice : j * (u32_at ifile 12 * u32_at ifile 8) + u32_at ifile 12 * u32_at ifile 8
        ≤ u32_at ifile 4 * u32_at ifile 8 * u32_at ifile 12 := by
      rw [hprod, ← Nat.succ_mul]
      exact Nat.mul_le_mul_right _ hj'
    rw [getD_take_drop lfile 8 _ j hj', slice_take_drop ifile 16 _ _ _ hslice,
      pgm_header_eq_spec _ (u32_at ifile 12) (u32_at ifile 8) rfl rfl]

/-- C1, witness: the end-to-end example of the specification.  The run writes
`outdir/3/image0.pgm` with `P5 2 2 255`, newline, 10 20 30 40 and `outdir/7/image1.pgm` with
`P5 2 2 255`, newline, 50 60 70 80, and nothing else. -/
theorem run_writes_every_sample_witness :
    (∃ w', main Env.ok example_world [ascii "labels", ascii "images", ascii "outdir"]
        = { status := 0, error := none, world := w' } ∧
      w'.written = example_world.written ++ (List.range (u32_at example_images_file 4)).map
        (fun i => (sample_path (ascii "outdir") (example_labels_file.getD (8 + i) 0) i,
          spec_header (u32_at example_images_file 12) (u32_at example_images_file 8)
            ++ (example_images_file.drop (16 + i * (u32_at example_images_file 12
                * u32_at example_images_file 8))).take
              (u32_at example_images_file 12 * u32_at example_images_file 8)))) ∧
    example_world.written ++ (List.range (u32_at example_images_file 4)).map
        (fun i => (sample_path (ascii "outdir") (example_labels_file.getD (8 + i) 0) i,
          spec_header (u32_at example_images_file 12) (u32_at example_images_file 8)
            ++ (example_images_file.drop (16 + i * (u32_at example_images_file 12
                * u32_at example_images_file 8))).take
              (u32_at example_images_file 12 * u32_at example_images_file 8)))
      = [(ascii "outdir/3/image0.pgm", ascii "P5 2 2 255\n" ++ [10, 20, 30, 40]),
         (ascii "outdir/7/image1.pgm", ascii "P5 2 2 255\n" ++ [50, 60, 70, 80])] :=
  ⟨run_writes_every_sample Env.ok example_world (ascii "labels") (ascii "images")
      (ascii "outdir") example_labels_file example_images_file (by decide) (by decide)
      (by decide) (by decide) (by decide) (by decide) (by decide) (by decide) (by decide)
      (by decide) (by decide) (by decide) (by decide) (by decide) (by decide)
      (fun _ => rfl) (fun _ => rfl) (fun _ _ => rfl),
    by decide⟩

/-! ## The output paths of distinct samples -/

theorem sample_path_eq (output_dir : CStr) (label : UInt8) (i : Nat) :
    sample_path output_dir label i = sample_dir output_dir label ++ sample_file i := rfl

/-- A printed number followed by a byte that is not a digit determines the number and what
follows. -/
theorem decimal_append_inj (a b : Nat) (c : UInt8) (x y : List UInt8) (hc : is_digit c = false)
    (h : decimal a ++ c :: x = decimal b ++ c :: y) : a = b ∧ x = y := by
  have ha := read_number_decimal a c x hc
  rw [h, read_number_decimal b c y hc] at ha
  injection ha with ha
  injection ha with h1 h2
  injection h2 with _ h3
  exact ⟨h1.symm, h3.symm⟩

theorem sample_path_inj (output_dir : CStr) (l1 l2 : UInt8) (i j : Nat)
    (h : sample_path output_dir l1 i = sample_path output_dir l2 j) : i = j ∧ l1 = l2 := by
  have hs : ascii "/" = [47] := by decide
  have hp : ascii ".pgm" = [46, 112, 103, 109] := by decide
  have h47 : is_digit 47 = false := by decide
  have h46 : is_digit 46 = false := by decide
  unfold sample_path at h
  rw [fmt_d_natCast, fmt_d_natCast, fmt_d_natCast, fmt_d_natCast, hs, hp] at h
  simp only [List.append_assoc, List.singleton_append, List.cons_append, List.nil_append] at h
  have h1 := List.append_cancel_left h
  injection h1 with _ h1
  obtain ⟨hl, h2⟩ := decimal_append_inj _ _ 47 _ _ h47 h1
  have h3 := List.append_cancel_left h2
  obtain ⟨hij, _⟩ := decimal_append_inj _ _ 46 _ _ h46 h3
  exact ⟨hij, UInt8.ext_iff.mpr hl⟩

/-- C15: for a fixed output directory and label set the map from the sample index `i` to the
output path `output_dir/<label i>/image<i>.pgm` is injective: two distinct samples have
distinct paths, and the paths of the samples `0`, ..., `n - 1` of a run are pairwise distinct,
so that no sample overwrites the file of another. -/
theorem sample_paths_are_distinct (output_dir : CStr) (labels : List UInt8) :
    (∀ i j : Nat, i ≠ j →
      sample_path output_dir (labels.getD i 0) i ≠ sample_path output_dir (labels.getD j 0) j) ∧
    (∀ n : Nat,
      ((List.range n).map (fun i => sample_path output_dir (labels.getD i 0) i)).Nodup) := by
  have hinj : ∀ i j : Nat, sample_path output_dir (labels.getD i 0) i
      = sample_path output_dir (labels.getD j 0) j → i = j :=
    fun i j h => (sample_path_inj output_dir _ _ i j h).1
  refine ⟨fun i j hne h => hne (hinj i j h), fun n => ?_⟩
  exact (List.nodup_range n).map (fun i j h => hinj i j h)

/-- C15, witness: the two samples of the example of the specification. -/
theorem sample_paths_are_distinct_witness :
    (0 : Nat) ≠ 1 ∧
    sample_path (ascii "outdir") ([3, 7].getD 0 0) 0
      ≠ sample_path (ascii "outdir") ([3, 7].getD 1 0) 1 :=
  ⟨by decide, (sample_paths_are_distinct (ascii "outdir") [3, 7]).1 0 1 (by decide)⟩

/-! ## The order of the checks in `read_images` -/

theorem be_word_short (file : List UInt8) (h : file.length < 4) : be_word file = 0 := by
  match file, h with
  | [], _ => rfl
  | [_], _ => rfl
  | [_, _], _ => rfl
  | [_, _, _], _ => rfl
  | _ :: _ :: _ :: _ :: _, h => simp at h; omega

theorem length_of_magic (file : List UInt8) (m : Nat) (hm : 0 < m) (h : u32_at file 0 = m) :
    4 ≤ file.length := by
  by_contra hlt
  rw [u32_at_zero, be_word_short file (by omega)] at h
  omega

/-- C17: `read_images` applies its checks in the order magic number, completeness of the
header, positivity of the header words, length of the payload, and stops with the error of
the first one that fails: a file of at least four bytes with a wrong magic number gives the
bad-magic error however short it is; a file with magic 2051 and fewer than 16 bytes gives the
truncated-read error; a file with a complete header and a zero header word gives the
invalid-header error whatever payload it has; and a file with positive header words (product
below `2^31`) and too short a payload gives the truncated-read error. -/
theorem read_images_check_order (w : World) (name : CStr) (file : List UInt8) (g : Globals)
    (hfile : w.files.lookup name = some file) :
    (4 ≤ file.length → u32_at file 0 ≠ 2051 →
      read_images w name g = .error .BadMagicError) ∧
    (u32_at file 0 = 2051 → file.length < 16 →
      read_images w name g = .error .TruncatedReadError) ∧
    (u32_at file 0 = 2051 → 16 ≤ file.length →
      (u32_at file 4 = 0 ∨ u32_at file 8 = 0 ∨ u32_at file 12 = 0) →
      read_images w name g = .error .InvalidHeaderError) ∧
    (u32_at file 0 = 2051 → 16 ≤ file.length →
      0 < u32_at file 4 → 0 < u32_at file 8 → 0 < u32_at file 12 →
      u32_at file 4 * u32_at file 8 * u32_at file 12 < 2147483648 →
      file.length < 16 + u32_at file 4 * u32_at file 8 * u32_at file 12 →
      read_images w name g = .error .TruncatedReadError) := by
  rw [read_images_of_lookup w name file g hfile]
  refine ⟨fun h4 hm => read_images_stream_bad_magic file g h4 hm, fun hm h16 => ?_,
    fun hm h16 hz => ?_, fun hm h16 hn hh hw hsmall hlen => ?_⟩
  · exact read_images_stream_header_short file g (length_of_magic file 2051 (by omega) hm) hm h16
  · have hn := signed_nonpos_iff _ (u32_at_lt file 4)
    have hh := signed_nonpos_iff _ (u32_at_lt file 8)
    have hw := signed_nonpos_iff _ (u32_at_lt file 12)
    exact read_images_stream_invalid file g h16 hm (by omega)
  · have a1 : u32_at file 4 * u32_at file 8 ≤ u32_at file 4 * u32_at file 8 * u32_at file 12 :=
      Nat.le_mul_of_pos_right _ hw
    have a2 : u32_at file 4 ≤ u32_at file 4 * u32_at file 8 := Nat.le_mul_of_pos_right _ hh
    have a3 : u32_at file 12 ≤ u32_at file 4 * u32_at file 8 * u32_at file 12 :=
      Nat.le_mul_of_pos_left _ (by omega)
    have a4 : u32_at file 8 ≤ u32_at file 4 * u32_at file 8 := Nat.le_mul_of_pos_left _ hn
    have e4 := signed_pos_eq (u32_at file 4) hn (by omega)
    have e8 := signed_pos_eq (u32_at file 8) hh (by omega)
    have e12 := signed_pos_eq (u32_at file 12) hw (by omega)
    have hprod := wrap32_product _ _ _ hw hsmall
    have hb : read_block (wrap32 (wrap32 (wrap32 (u32_at file 4 : Int)
        * wrap32 (u32_at file 8 : Int)) * wrap32 (u32_at file 12 : Int))) (file.drop 16)
        = .error .TruncatedReadError := by
      rw [e4, e8, e12, hprod]
      generalize u32_at file 4 * u32_at file 8 * u32_at file 12 = total at hlen ⊢
      exact read_block_of_gt _ _ (by omega) (by simp; omega)
    exact read_images_stream_block_error file g h16 hm (by omega) (by omega) (by omega) _ hb

/-- C17, witness: a file of ten bytes whose first word is 2049, read as an image file: the
magic number is wrong and the header incomplete, and the error is the bad-magic one. -/
theorem read_images_check_order_witness :
    zero_count_world.files.lookup (ascii "labels") = some ([0, 0, 8, 1, 0, 0, 0, 0] ++ [9, 9]) ∧
    read_images zero_count_world (ascii "labels") Globals.init = .error .BadMagicError :=
  ⟨by decide,
    (read_images_check_order zero_count_world (ascii "labels")
      ([0, 0, 8, 1, 0, 0, 0, 0] ++ [9, 9]) Globals.init (by decide)).1 (by decide) (by decide)⟩

/-! ## Bytes after the declared payload -/

theorem be_word_append (file t : List UInt8) (h : 4 ≤ file.length) :
    be_word (file ++ t) = be_word file := by
  match file, h with
  | _ :: _ :: _ :: _ :: _, _ => rfl

theorem u32_at_append (file t : List UInt8) (k : Nat) (h : k + 4 ≤ file.length) :
    u32_at (file ++ t) k = u32_at file k := by
  unfold u32_at
  rw [List.drop_append_of_le_length (by omega)]
  exact be_word_append _ _ (by simp; omega)

theorem read_block_append (n : Int) (file t out : List UInt8)
    (h : read_block n file = .ok out) : read_block n (file ++ t) = .ok out := by
  obtain ⟨h0, hle, hout⟩ := read_block_ok_inv n file out h
  rw [read_block_of_le n (file ++ t) h0 (by simp; omega),
    List.take_append_of_le_length (by omega), hout]

theorem read_labels_stream_append (file t : List UInt8) (g : Globals)
    (r : List UInt8 × Globals) (h : read_labels_stream file g = .ok r) :
    read_labels_stream (file ++ t) g = .ok r := by
  obtain ⟨labels, g'⟩ := r
  obtain ⟨h8, hm, hb, hg⟩ := read_labels_stream_ok_inv file g labels g' h
  have hb' := read_block_append _ _ t _ hb
  rw [← List.drop_append_of_le_length (by omega), ← u32_at_append file t 4 (by omega)] at hb'
  rw [read_labels_stream_block_ok (file ++ t) g (by simp; omega)
    (by rw [u32_at_append file t 0 (by omega)]; exact hm) labels hb',
    u32_at_append file t 4 (by omega), hg]

theorem read_images_stream_append (file t : List UInt8) (g : Globals)
    (r : List UInt8 × Globals) (h : read_images_stream file g = .ok r) :
    read_images_stream (file ++ t) g = .ok r := by
  obtain ⟨images, g'⟩ := r
  obtain ⟨h16, hm, hn, hh, hw, hb, hg⟩ := read_images_stream_ok_inv file g images g' h
  have e0 := u32_at_append file t 0 (by omega)
  have e4 := u32_at_append file t 4 (by omega)
  have e8 := u32_at_append file t 8 (by omega)
  have e12 := u32_at_append file t 12 (by omega)
  have hb' := read_block_append _ _ t _ hb
  rw [← List.drop_append_of_le_length (by omega), ← e4, ← e8, ← e12] at hb'
  rw [read_images_stream_block_ok (file ++ t) g (by simp; omega) (by rw [e0]; exact hm)
    (by rw [e4]; exact hn) (by rw [e8]; exact hh) (by rw [e12]; exact hw) images hb',
    e4, e8, e12, hg]

/-- C18: `read_labels` and `read_images` ignore the bytes after the declared payload: when
the reader accepts a file `f`, it accepts `f ++ t` for every byte string `t` and returns the
same buffer and the same global state (count and dimensions). -/
theorem trailing_bytes_are_ignored (w w' : World) (name name' : CStr) (f t : List UInt8)
    (g : Globals) (r : List UInt8 × Globals) (hf : w.files.lookup name = some f)
    (hft : w'.files.lookup name' = some (f ++ t)) :
    (read_labels w name g = .ok r → read_labels w' name' g = .ok r) ∧
    (read_images w name g = .ok r → read_images w' name' g = .ok r) := by
  rw [read_labels_of_lookup w name f g hf, read_labels_of_lookup w' name' (f ++ t) g hft,
    read_images_of_lookup w name f g hf, read_images_of_lookup w' name' (f ++ t) g hft]
  exact ⟨read_labels_stream_append f t g r, read_images_stream_append f t g r⟩

/-- C18, witness: the input files of the example with three more bytes at the end. -/
theorem trailing_bytes_are_ignored_witness :
    read_labels trailing_bytes_world (ascii "labels") Globals.init
        = .ok ([3, 7], { num_labels := 2, num_images := 0, width := 0, height := 0 }) ∧
    read_images trailing_bytes_world (ascii "images") Globals.init
        = .ok ([10, 20, 30, 40, 50, 60, 70, 80],
            { num_labels := 0, num_images := 2, width := 2, height := 2 }) :=
  ⟨(trailing_bytes_are_ignored example_world trailing_bytes_world (ascii "labels")
      (ascii "labels") example_labels_file [1, 2, 3] Globals.init _ (by decide) (by decide)).1
      (by decide),
    (trailing_bytes_are_ignored example_world trailing_bytes_world (ascii "images")
      (ascii "images") example_images_file [1, 2, 3] Globals.init _ (by decide) (by decide)).2
      (by decide)⟩

/-! ## A label file that declares no label -/

/-- C19: a label file that consists of the magic number 2049 and the count 0, with or without
further bytes, is accepted by `read_labels`: the label set is empty and `num_labels` is 0;
there is no positivity check on the count. -/
theorem zero_count_is_accepted (w : World) (name : CStr) (t : List UInt8) (g : Globals)
    (hfile : w.files.lookup name = some ([0, 0, 8, 1, 0, 0, 0, 0] ++ t)) :
    read_labels w name g = .ok ([], { g with num_labels := 0 }) := by
  have h0 : u32_at ([0, 0, 8, 1, 0, 0, 0, 0] ++ t) 0 = 2049 := rfl
  have h4 : u32_at ([0, 0, 8, 1, 0, 0, 0, 0] ++ t) 4 = 0 := rfl
  rw [read_labels_of_lookup w name _ g hfile,
    read_labels_stream_valid _ g (by simp) h0 (by rw [h4]; omega) (by rw [h4]; simp), h4]
  rfl

/-- C19, witness: magic 2049, count 0 and two more bytes. -/
theorem zero_count_is_accepted_witness :
    zero_count_world.files.lookup (ascii "labels") = some ([0, 0, 8, 1, 0, 0, 0, 0] ++ [9, 9]) ∧
    read_labels zero_count_world (ascii "labels") Globals.init
      = .ok ([], { Globals.init with num_labels := 0 }) :=
  ⟨by decide, zero_count_is_accepted zero_count_world (ascii "labels") [9, 9] Globals.init
    (by decide)⟩

/-! ## The order of the steps of `main` -/

theorem main_wrong_arity (env : Env) (w : World) (args : List CStr) (h : args.length ≠ 3) :
    main env w args = { status := 1, error := some .UsageError, world := w } := by
  match args, h with
  | [], _ => rfl
  | [_], _ => rfl
  | [_, _], _ => rfl
  | [_, _, _], h => exact absurd rfl h
  | _ :: _ :: _ :: _ :: _, _ => rfl

theorem main_missing_directory (env : Env) (w : World) (a b c : CStr)
    (labels images : List UInt8) (g1 g2 : Globals)
    (h : read_labels w a Globals.init = .ok (labels, g1))
    (h2 : read_images w b g1 = .ok (images, g2)) (heq : g2.num_images = g2.num_labels)
    (hdir : isDirectory w c = false) :
    main env w [a, b, c]
      = { status := 1, error := some .MissingOutputDirectoryError, world := w } := by
  simp only [main, h, h2, heq, ne_eq, not_true_eq_false, if_false, hdir, Bool.not_false, if_true]

/-! ## The loop, sample by sample -/

/-- An iteration that succeeds is followed by the iterations for the next samples. -/
theorem convert_loop_succ_ok (env : Env) (g : Globals) (labels images : List UInt8)
    (output_dir : CStr) (n i : Nat) (w w1 : World)
    (h : sample_step env g labels images output_dir i w = (w1, none)) :
    convert_loop env g labels images output_dir (n + 1) i w
      = convert_loop env g labels images output_dir n (i + 1) w1 := by
  rw [convert_loop]
  unfold sample_step at h
  cases hg : labels.get? i with
  | none => rw [hg] at h; cases h
  | some label =>
    rw [hg] at h
    by_cases hd : (output_dir ++ ascii "/" ++ fmt_d (label.toNat : Int) ++ ascii "/").length
        ≥ MAX_PATH
    · simp only [hd, if_true] at h; cases h
    · by_cases hf : (ascii "image" ++ fmt_d (i : Int) ++ ascii ".pgm").length ≥ MAX_PATH
      · simp only [hd, hf, if_true, if_false] at h; cases h
      · simp only [hd, hf, if_false] at h
        simp only [hd, hf, if_false, h]

/-- An iteration that fails ends the loop: its error is the error of the loop and the world
is the one it leaves. -/
theorem convert_loop_succ_error (env : Env) (g : Globals) (labels images : List UInt8)
    (output_dir : CStr) (n i : Nat) (w w1 : World) (e : Error)
    (h : sample_step env g labels images output_dir i w = (w1, some e)) :
    convert_loop env g labels images output_dir (n + 1) i w = (w1, some e) := by
  rw [convert_loop]
  unfold sample_step at h
  cases hg : labels.get? i with
  | none => rw [hg] at h; exact h
  | some label =>
    rw [hg] at h
    by_cases hd : (output_dir ++ ascii "/" ++ fmt_d (label.toNat : Int) ++ ascii "/").length
        ≥ MAX_PATH
    · simp only [hd, if_true] at h ⊢; exact h
    · by_cases hf : (ascii "image" ++ fmt_d (i : Int) ++ ascii ".pgm").length ≥ MAX_PATH
      · simp only [hd, hf, if_true, if_false] at h ⊢; exact h
      · simp only [hd, hf, if_false] at h
        simp only [hd, hf, if_false, h]

/-- The loop passes the samples that succeed one after the other, in the order of their
indices: after `m` successful iterations from index `i` on, `n - m` iterations remain, from
index `i + m` on. -/
theorem convert_loop_prefix (env : Env) (g : Globals) (labels images : List UInt8)
    (output_dir : CStr) (ws : Nat → World) :
    ∀ (m n i : Nat), m ≤ n →
      (∀ j, j < m → sample_step env g labels images output_dir (i + j) (ws (i + j))
        = (ws (i + j + 1), none)) →
      convert_loop env g labels images output_dir n i (ws i)
        = convert_loop env g labels images output_dir (n - m) (i + m) (ws (i + m)) := by
  intro m
  induction m with
  | zero => intro n i _ _; rfl
  | succ m ih =>
    intro n i hmn hstep
    obtain ⟨n', rfl⟩ : ∃ n', n = n' + 1 := ⟨n - 1, by omega⟩
    have h0 := hstep 0 (by omega)
    rw [Nat.add_zero] at h0
    rw [convert_loop_succ_ok env g labels images output_dir n' i (ws i) (ws (i + 1)) h0,
      ih n' (i + 1) (by omega) (fun j hj => by
        have := hstep (j + 1) (by omega)
        rw [show i + (j + 1) = i + 1 + j by omega] at this
        exact this)]
    rw [show n' + 1 - (m + 1) = n' - m by omega, show i + 1 + m = i + (m + 1) by omega]

/-- The loop stops at the first sample whose iteration fails. -/
theorem convert_loop_first_failure (env : Env) (g : Globals) (labels images : List UInt8)
    (output_dir : CStr) (ws : Nat → World) (m n : Nat) (w1 : World) (e : Error) (hmn : m < n)
    (hstep : ∀ j, j < m → sample_step env g labels images output_dir j (ws j)
      = (ws (j + 1), none))
    (hfail : sample_step env g labels images output_dir m (ws m) = (w1, some e)) :
    convert_loop env g labels images output_dir n 0 (ws 0) = (w1, some e) := by
  have hp := convert_loop_prefix env g labels images output_dir ws m n 0 (by omega)
    (fun j hj => by rw [Nat.zero_add]; exact hstep j hj)
  rw [Nat.zero_add] at hp
  rw [hp]
  obtain ⟨k, hk⟩ : ∃ k, n - m = k + 1 := ⟨n - m - 1, by omega⟩
  rw [hk]
  exact convert_loop_succ_error env g labels images output_dir k m (ws m) w1 e hfail

/-- The loop ends without an error when the iteration of every sample succeeds. -/
theorem convert_loop_all_ok (env : Env) (g : Globals) (labels images : List UInt8)
    (output_dir : CStr) (ws : Nat → World) (n : Nat)
    (hstep : ∀ j, j < n → sample_step env g labels images output_dir j (ws j)
      = (ws (j + 1), none)) :
    convert_loop env g labels images output_dir n 0 (ws 0) = (ws n, none) := by
  have hp := convert_loop_prefix env g labels images output_dir ws n n 0 (Nat.le_refl _)
    (fun j hj => by rw [Nat.zero_add]; exact hstep j hj)
  rw [Nat.zero_add, Nat.sub_self] at hp
  rw [hp]
  rfl

/-- With both files read, equal counts and an existing output directory the run is the
loop over the samples. -/
theorem main_is_loop (env : Env) (w : World) (a b c : CStr)
    (labels images : List UInt8) (g1 g2 : Globals)
    (h : read_labels w a Globals.init = .ok (labels, g1))
    (h2 : read_images w b g1 = .ok (images, g2)) (heq : g2.num_images = g2.num_labels)
    (hdir : isDirectory w c = true) (r : World × Option Error)
    (hr : convert_loop env g2 labels images c g2.num_images.toNat 0 w = r) :
    main env w [a, b, c] = { status := exit_status r.2, error := r.2, world := r.1 } := by
  subst hr
  simp only [main, h, h2, heq, ne_eq, not_true_eq_false, if_false, hdir, Bool.not_true,
    Bool.false_eq_true]

/-- C16: the run stops at the first failing step in the order arity check, label file, image
file, count consistency, existence of the output directory, samples by index.  A wrong number
of arguments gives the usage error; an error of `read_labels` is the error of the run whatever
the image file is; with the labels read, an error of `read_images` is the error of the run;
with both read, different counts give the consistency error whatever the output directory is;
with equal counts, a missing output directory gives its error; in all these cases the file
system is left as it was.  With the four steps before the loop passed, the samples are taken
by index from 0 on, each in the world that the one before it leaves: when the iterations of
the samples `0`, ..., `m - 1` succeed and the iteration of sample `m` fails, the error of
sample `m` is the error of the run and the run leaves the world as that iteration left it, no
later sample being touched; when the iterations of all samples succeed the run ends with
status 0 in the world that the last one leaves.  A run that writes a file has passed all four
steps before the loop. -/
theorem failures_in_fixed_order (env : Env) (w : World) :
    (∀ args : List CStr, args.length ≠ 3 →
      main env w args = { status := 1, error := some .UsageError, world := w }) ∧
    (∀ (a b c : CStr) (e : Error), read_labels w a Globals.init = .error e →
      (main env w [a, b, c]).error = some e ∧ (main env w [a, b, c]).world = w) ∧
    (∀ (a b c : CStr) (labels : List UInt8) (g1 : Globals) (e : Error),
      read_labels w a Globals.init = .ok (labels, g1) → read_images w b g1 = .error e →
      (main env w [a, b, c]).error = some e ∧ (main env w [a, b, c]).world = w) ∧
    (∀ (a b c : CStr) (labels images : List UInt8) (g1 g2 : Globals),
      read_labels w a Globals.init = .ok (labels, g1) → read_images w b g1 = .ok (images, g2) →
      g2.num_images ≠ g2.num_labels →
      main env w [a, b, c] = { status := 1, error := some .ConsistencyError, world := w }) ∧
    (∀ (a b c : CStr) (labels images : List UInt8) (g1 g2 : Globals),
      read_labels w a Globals.init = .ok (labels, g1) → read_images w b g1 = .ok (images, g2) →
      g2.num_images = g2.num_labels → isDirectory w c = false →
      main env w [a, b, c]
        = { status := 1, error := some .MissingOutputDirectoryError, world := w }) ∧
    (∀ (a b c : CStr) (labels images : List UInt8) (g1 g2 : Globals),
      read_labels w a Globals.init = .ok (labels, g1) → read_images w b g1 = .ok (images, g2) →
      g2.num_images = g2.num_labels → isDirectory w c = true →
      ∀ ws : Nat → World, ws 0 = w →
        (∀ (m : Nat) (w1 : World) (e : Error), m < g2.num_images.toNat →
          (∀ j, j < m → sample_step env g2 labels images c j (ws j) = (ws (j + 1), none)) →
          sample_step env g2 labels images c m (ws m) = (w1, some e) →
          main env w [a, b, c]
            = { status := exit_status (some e), error := some e, world := w1 }) ∧
        ((∀ j, j < g2.num_images.toNat →
            sample_step env g2 labels images c j (ws j) = (ws (j + 1), none)) →
          main env w [a, b, c]
            = { status := 0, error := none, world := ws g2.num_images.toNat })) ∧
    (∀ args : List CStr, (main env w args).world.written ≠ w.written →
      ∃ (a b c : CStr) (labels images : List UInt8) (g1 g2 : Globals),
        args = [a, b, c] ∧ read_labels w a Globals.init = .ok (labels, g1) ∧
        read_images w b g1 = .ok (images, g2) ∧ g2.num_images = g2.num_labels ∧
        isDirectory w c = true) := by
  refine ⟨main_wrong_arity env w, fun a b c e h => ?_, fun a b c labels g1 e h h2 => ?_,
    fun a b c labels images g1 g2 h h2 hne =>
      main_count_mismatch env w a b c labels images g1 g2 h h2 hne,
    fun a b c labels images g1 g2 h h2 heq hdir =>
      main_missing_directory env w a b c labels images g1 g2 h h2 heq hdir,
    fun a b c labels images g1 g2 h h2 heq hdir ws hws => ⟨fun m w1 e hm hstep hfail => ?_,
      fun hstep => ?_⟩,
    fun args hw => ?_⟩
  · rw [main_labels_error env w a b c e h]; exact ⟨rfl, rfl⟩
  · rw [main_images_error env w a b c labels g1 e h h2]; exact ⟨rfl, rfl⟩
  · have hl := convert_loop_first_failure env g2 labels images c ws m g2.num_images.toNat w1 e
      hm hstep hfail
    rw [hws] at hl
    rw [main_is_loop env w a b c labels images g1 g2 h h2 heq hdir _ hl]
  · have hl := convert_loop_all_ok env g2 labels images c ws g2.num_images.toNat hstep
    rw [hws] at hl
    rw [main_is_loop env w a b c labels images g1 g2 h h2 heq hdir _ hl]
    rfl
  · by_cases hlen : args.length = 3
    · match args, hlen with
      | [a, b, c], _ =>
        cases hl : read_labels w a Globals.init with
        | error e => rw [main_labels_error env w a b c e hl] at hw; exact absurd rfl hw
        | ok r1 =>
          obtain ⟨labels, g1⟩ := r1
          cases hi : read_images w b g1 with
          | error e =>
            rw [main_images_error env w a b c labels g1 e hl hi] at hw; exact absurd rfl hw
          | ok r2 =>
            obtain ⟨images, g2⟩ := r2
            by_cases heq : g2.num_images = g2.num_labels
            · cases hdir : isDirectory w c with
              | false =>
                rw [main_missing_directory env w a b c labels images g1 g2 hl hi heq hdir] at hw
                exact absurd rfl hw
              | true => exact ⟨a, b, c, labels, images, g1, g2, rfl, hl, hi, heq, hdir⟩
            · rw [main_count_mismatch env w a b c labels images g1 g2 hl hi heq] at hw
              exact absurd rfl hw
    · rw [main_wrong_arity env w args hlen] at hw; exact absurd rfl hw

/-- C16, witness: with both input files malformed the run reports the error of the label
file; with one label against two images and no output directory it reports the consistency
error; and with three samples of which the file of sample 1 cannot be opened the run writes
the file of sample 0, stops with the error of sample 1 and does not touch sample 2. -/
theorem failures_in_fixed_order_witness :
    read_labels both_invalid_world (ascii "labels") Globals.init = .error .BadMagicError ∧
    read_images both_invalid_world (ascii "images") Globals.init = .error .TruncatedReadError ∧
    (main Env.ok both_invalid_world [ascii "labels", ascii "images", ascii "outdir"]).error
      = some .BadMagicError ∧
    isDirectory mismatch_world (ascii "missing") = false ∧
    main Env.ok mismatch_world [ascii "labels", ascii "images", ascii "missing"]
      = { status := 1, error := some .ConsistencyError, world := mismatch_world } ∧
    main second_file_refused three_sample_world [ascii "labels", ascii "images", ascii "outdir"]
      = { status := 1, error := some .FileOpenError,
          world :=
            { dirs := [ascii "outdir/7/", ascii "outdir/3/", ascii "outdir"],
              files := (ascii "outdir/3/image0.pgm", ascii "P5 1 1 255\n" ++ [10])
                :: three_sample_world.files,
              created := [ascii "outdir/3/", ascii "outdir/7/"],
              written := [(ascii "outdir/3/image0.pgm", ascii "P5 1 1 255\n" ++ [10])] } } :=
  ⟨by decide, by decide,
    ((failures_in_fixed_order Env.ok both_invalid_world).2.1 (ascii "labels") (ascii "images")
      (ascii "outdir") .BadMagicError (by decide)).1,
    by decide,
    (failures_in_fixed_order Env.ok mismatch_world).2.2.2.1 (ascii "labels") (ascii "images")
      (ascii "missing") [3] [10, 20, 30, 40, 50, 60, 70, 80]
      { num_labels := 1, num_images := 0, width := 0, height := 0 }
      { num_labels := 1, num_images := 2, width := 2, height := 2 }
      (by decide) (by decide) (by decide),
    ((failures_in_fixed_order second_file_refused three_sample_world).2.2.2.2.2.1
      (ascii "labels") (ascii "images") (ascii "outdir") [3, 7, 3] [10, 20, 30]
      { num_labels := 3, num_images := 0, width := 0, height := 0 }
      { num_labels := 3, num_images := 3, width := 1, height := 1 }
      (by decide) (by decide) (by decide) (by decide)
      (fun j => if j = 0 then three_sample_world
        else (sample_step second_file_refused
          { num_labels := 3, num_images := 3, width := 1, height := 1 }
          [3, 7, 3] [10, 20, 30] (ascii "outdir") 0 three_sample_world).1)
      rfl).1 1
      { dirs := [ascii "outdir/7/", ascii "outdir/3/", ascii "outdir"],
        files := (ascii "outdir/3/image0.pgm", ascii "P5 1 1 255\n" ++ [10])
          :: three_sample_world.files,
        created := [ascii "outdir/3/", ascii "outdir/7/"],
        written := [(ascii "outdir/3/image0.pgm", ascii "P5 1 1 255\n" ++ [10])] }
      .FileOpenError (by decide)
      (fun j hj => by
        obtain rfl : j = 0 := by omega
        decide)
      (by decide)⟩

/-! ## The exit status -/

theorem exit_status_zero_iff (e : Option Error) :
    exit_status e = 0 ↔ e = none := by
  cases e with
  | none => exact ⟨fun _ => rfl, fun _ => rfl⟩
  | some e => cases e <;> exact ⟨fun h => (by cases h), fun h => (by cases h)⟩

/-- The exit status of a run is the one of the error that stopped it. -/
theorem main_status (env : Env) (w : World) (args : List CStr) :
    (main env w args).status = exit_status (main env w args).error := by
  by_cases hlen : args.length = 3
  · match args, hlen with
    | [a, b, c], _ =>
      cases hl : read_labels w a Globals.init with
      | error e => rw [main_labels_error env w a b c e hl]
      | ok r1 =>
        obtain ⟨labels, g1⟩ := r1
        cases hi : read_images w b g1 with
        | error e => rw [main_images_error env w a b c labels g1 e hl hi]
        | ok r2 =>
          obtain ⟨images, g2⟩ := r2
          by_cases heq : g2.num_images = g2.num_labels
          · cases hdir : isDirectory w c with
            | false =>
              rw [main_missing_directory env w a b c labels images g1 g2 hl hi heq hdir]; rfl
            | true =>
              simp only [main, hl, hi, heq, ne_eq, not_true_eq_false, if_false, hdir,
                Bool.not_true, Bool.false_eq_true]
          · rw [main_count_mismatch env w a b c labels images g1 g2 hl hi heq]; rfl
  · rw [main_wrong_arity env w args hlen]; rfl

/-- The exit status is 0 exactly when the run reaches the end of `main`, and it is 1 whenever
the run stops at one of the `exit(1)` sites of the program. -/
theorem main_status_zero_or_one (env : Env) (w : World) (args : List CStr) :
    ((main env w args).status = 0 ↔ (main env w args).error = none) ∧
    (∀ e, (main env w args).error = some e → e ≠ .MemoryFault → (main env w args).status = 1) := by
  rw [main_status]
  refine ⟨exit_status_zero_iff _, fun e he hne => ?_⟩
  rw [he]
  cases e <;> first | rfl | exact absurd rfl hne

/-- C12 (the code departs from it): with the label file `00 00 08 01 80 00 00 00 05` the run
does not reach an `exit(1)`: the count is read as a negative `int`, `calloc` returns NULL and
the label byte is stored through it.  The process is killed by the memory fault; its status
is neither 0 nor 1. -/
theorem run_killed_by_memory_fault :
    (main Env.ok high_count_world [ascii "labels", ascii "images", ascii "outdir"]).error
      = some .MemoryFault ∧
    (main Env.ok high_count_world [ascii "labels", ascii "images", ascii "outdir"]).status
      = 139 := by
  decide

/-- C14 (the code departs from it): the label file with 4 labels and the image file with the
header words 4, 32768, 32768 and no payload are both accepted (the byte count `2^32` wraps to
0, so the image buffer is empty) and the counts agree; the first iteration of the loop then
passes a block of `32768 * 32768` bytes at offset 0 of the empty buffer to `fwrite`: the
out-of-bounds branch is reached. -/
theorem slice_outside_buffer_is_reached :
    read_labels wrapping_world (ascii "labels") Globals.init
        = .ok ([1, 2, 3, 4], { num_labels := 4, num_images := 0, width := 0, height := 0 }) ∧
    read_images wrapping_world (ascii "images")
          { num_labels := 4, num_images := 0, width := 0, height := 0 }
        = .ok ([], { num_labels := 4, num_images := 4, width := 32768, height := 32768 }) ∧
    (main Env.ok wrapping_world [ascii "labels", ascii "images", ascii "outdir"]).error
      = some .MemoryFault := by
  decide

/-! ## Streams: where they are closed -/

theorem read_int_error (file : List UInt8) (e : Error) (h : read_int file = .error e) :
    e = .TruncatedReadError := by
  unfold read_int at h
  split at h
  · cases h
  · injection h with h; exact h.symm

theorem read_labels_streams_spec (w : World) (name : CStr) (g : Globals) :
    (∀ r, read_labels w name g = .ok r →
      read_labels_streams w name = [.opened name, .closed name, .returned]) ∧
    (∀ e, read_labels w name g = .error e → e ≠ .FileOpenError →
      read_labels_streams w name = [.opened name, .exited (exit_status (some e))]) := by
  cases hlk : w.files.lookup name with
  | none =>
    have hr : read_labels w name g = .error .FileOpenError := by
      simp only [read_labels, hlk]
    rw [hr]
    exact ⟨fun r h => (by cases h), fun e h hne => (by injection h with h; exact absurd h.symm hne)⟩
  | some file =>
    cases h1 : read_int file with
    | error e1 =>
      have he1 := read_int_error file e1 h1
      subst he1
      have hr : read_labels w name g = .error .TruncatedReadError := by
        simp only [read_labels, read_labels_stream, hlk, h1]
      have hs : read_labels_streams w name = [.opened name, .exited 1] := by
        simp only [read_labels_streams, hlk, h1]
      rw [hr, hs]
      exact ⟨fun r h => (by cases h), fun e h _ => (by injection h with h; subst h; rfl)⟩
    | ok v1 =>
      obtain ⟨magic, file1⟩ := v1
      by_cases hm : magic ≠ LABEL_MAGIC
      · have hr : read_labels w name g = .error .BadMagicError := by
          simp only [read_labels, read_labels_stream, hlk, h1, hm, ne_eq, not_false_eq_true, if_true]
        have hs : read_labels_streams w name = [.opened name, .exited 1] := by
          simp only [read_labels_streams, hlk, h1, hm, ne_eq, not_false_eq_true, if_true]
        rw [hr, hs]
        exact ⟨fun r h => (by cases h), fun e h _ => (by injection h with h; subst h; rfl)⟩
      · cases h2 : read_int file1 with
        | error e2 =>
          have he2 := read_int_error file1 e2 h2
          subst he2
          have hr : read_labels w name g = .error .TruncatedReadError := by
            simp only [read_labels, read_labels_stream, hlk, h1, hm, ne_eq, not_not, not_true_eq_false, if_false, h2]
          have hs : read_labels_streams w name = [.opened name, .exited 1] := by
            simp only [read_labels_streams, hlk, h1, hm, ne_eq, not_not, not_true_eq_false, if_false, h2]
          rw [hr, hs]
          exact ⟨fun r h => (by cases h), fun e h _ => (by injection h with h; subst h; rfl)⟩
        | ok v2 =>
          obtain ⟨n, file2⟩ := v2
          cases hb : read_block n file2 with
          | error e3 =>
            have hr : read_labels w name g = .error e3 := by
              simp only [read_labels, read_labels_stream, hlk, h1, hm, ne_eq, not_not, not_true_eq_false, if_false, h2, hb]
            have hs : read_labels_streams w name
                = [.opened name, .exited (exit_status (some e3))] := by
              simp only [read_labels_streams, hlk, h1, hm, ne_eq, not_not, not_true_eq_false, if_false, h2, hb]
            rw [hr, hs]
            exact ⟨fun r h => (by cases h), fun e h _ => (by injection h with h; subst h; rfl)⟩
          | ok labels =>
            have hr : read_labels w name g = .ok (labels, { g with num_labels := n }) := by
              simp only [read_labels, read_labels_stream, hlk, h1, hm, ne_eq, not_not, not_true_eq_false, if_false, h2, hb]
            have hs : read_labels_streams w name
                = [.opened name, .closed name, .returned] := by
              simp only [read_labels_streams, hlk, h1, hm, ne_eq, not_not, not_true_eq_false, if_false, h2, hb]
            rw [hr, hs]
            exact ⟨fun r _ => rfl, fun e h _ => (by cases h)⟩

theorem read_images_streams_spec (w : World) (name : CStr) (g : Globals) :
    (∀ r, read_images w name g = .ok r →
      read_images_streams w name = [.opened name, .closed name, .returned]) ∧
    (∀ e, read_images w name g = .error e → e ≠ .FileOpenError →
      read_images_streams w name = [.opened name, .exited (exit_status (some e))]) := by
  cases hlk : w.files.lookup name with
  | none =>
    have hr : read_images w name g = .error .FileOpenError := by
      simp only [read_images, hlk]
    rw [hr]
    exact ⟨fun r h => (by cases h), fun e h hne => (by injection h with h; exact absurd h.symm hne)⟩
  | some file =>
    cases h1 : read_int file with
    | error e1 =>
      have he1 := read_int_error file e1 h1
      subst he1
      have hr : read_images w name g = .error .TruncatedReadError := by
        simp only [read_images, read_images_stream, hlk, h1]
      have hs : read_images_streams w name = [.opened name, .exited 1] := by
        simp only [read_images_streams, hlk, h1]
      rw [hr, hs]
      exact ⟨fun r h => (by cases h), fun e h _ => (by injection h with h; subst h; rfl)⟩
    | ok v1 =>
      obtain ⟨magic, file1⟩ := v1
      by_cases hm : magic ≠ IMAGE_MAGIC
      · have hr : read_images w name g = .error .BadMagicError := by
          simp only [read_images, read_images_stream, hlk, h1, hm, ne_eq, not_false_eq_true, if_true]
        have hs : read_images_streams w name = [.opened name, .exited 1] := by
          simp only [read_images_streams, hlk, h1, hm, ne_eq, not_false_eq_true, if_true]
        rw [hr, hs]
        exact ⟨fun r h => (by cases h), fun e h _ => (by injection h with h; subst h; rfl)⟩
      · cases h2 : read_int file1 with
        | error e2 =>
          have he2 := read_int_error file1 e2 h2
          subst he2
          have hr : read_images w name g = .error .TruncatedReadError := by
            simp only [read_images, read_images_stream, hlk, h1, hm, ne_eq, not_not, not_true_eq_false, if_false, h2]
          have hs : read_images_streams w name = [.opened name, .exited 1] := by
            simp only [read_images_streams, hlk, h1, hm, ne_eq, not_not, not_true_eq_false, if_false, h2]
          rw [hr, hs]
          exact ⟨fun r h => (by cases h), fun e h _ => (by injection h with h; subst h; rfl)⟩
        | ok v2 =>
          obtain ⟨n, file2⟩ := v2
          cases h3 : read_int file2 with
          | error e3 =>
            have he3 := read_int_error file2 e3 h3
            subst he3
            have hr : read_images w name g = .error .TruncatedReadError := by
              simp only [read_images, read_images_stream, hlk, h1, hm, ne_eq, not_not, not_true_eq_false, if_false, h2, h3]
            have hs : read_images_streams w name = [.opened name, .exited 1] := by
              simp only [read_images_streams, hlk, h1, hm, ne_eq, not_not, not_true_eq_false, if_false, h2, h3]
            rw [hr, hs]
            exact ⟨fun r h => (by cases h), fun e h _ => (by injection h with h; subst h; rfl)⟩
          | ok v3 =>
            obtain ⟨h, file3⟩ := v3
            cases h4 : read_int file3 with
            | error e4 =>
              have he4 := read_int_error file3 e4 h4
              subst he4
              have hr : read_images w name g = .error .TruncatedReadError := by
                simp only [read_images, read_images_stream, hlk, h1, hm, ne_eq, not_not, not_true_eq_false, if_false, h2, h3, h4]
              have hs : read_images_streams w name = [.opened name, .exited 1] := by
                simp only [read_images_streams, hlk, h1, hm, ne_eq, not_not, not_true_eq_false, if_false, h2, h3, h4]
              rw [hr, hs]
              exact ⟨fun r h => (by cases h), fun e h _ => (by injection h with h; subst h; rfl)⟩
            | ok v4 =>
              obtain ⟨wd, file4⟩ := v4
              by_cases hpos : n ≤ 0 ∨ h ≤ 0 ∨ wd ≤ 0
              · have hr : read_images w name g = .error .InvalidHeaderError := by
                  simp only [read_images, read_images_stream, hlk, h1, hm, ne_eq, not_not, not_true_eq_false, if_false, h2, h3, h4, hpos, if_true]
                have hs : read_images_streams w name = [.opened name, .exited 1] := by
                  simp only [read_images_streams, hlk, h1, hm, ne_eq, not_not, not_true_eq_false, if_false, h2, h3, h4, hpos, if_true]
                rw [hr, hs]
                exact ⟨fun r h => (by cases h), fun e h _ => (by injection h with h; subst h; rfl)⟩
              · cases hb : read_block (wrap32 (wrap32 (n * h) * wd)) file4 with
                | error e5 =>
                  have hr : read_images w name g = .error e5 := by
                    simp only [read_images, read_images_stream, hlk, h1, hm, ne_eq, not_not,
                      not_true_eq_false, if_false, h2, h3, h4, hpos, hb]
                  have hs : read_images_streams w name
                      = [.opened name, .exited (exit_status (some e5))] := by
                    simp only [read_images_streams, hlk, h1, hm, ne_eq, not_not,
                      not_true_eq_false, if_false, h2, h3, h4, hpos, hb]
                  rw [hr, hs]
                  exact ⟨fun r h => (by cases h), fun e h _ => (by injection h with h; subst h; rfl)⟩
                | ok images =>
                  have hr : read_images w name g
                      = .ok (images, { g with num_images := n, height := h, width := wd }) := by
                    simp only [read_images, read_images_stream, hlk, h1, hm, ne_eq, not_not,
                      not_true_eq_false, if_false, h2, h3, h4, hpos, hb]
                  have hs : read_images_streams w name
                      = [.opened name, .closed name, .returned] := by
                    simp only [read_images_streams, hlk, h1, hm, ne_eq, not_not,
                      not_true_eq_false, if_false, h2, h3, h4, hpos, hb]
                  rw [hr, hs]
                  exact ⟨fun r _ => rfl, fun e h _ => (by cases h)⟩

theorem write_pgm_image_streams_spec (env : Env) (g : Globals) (w : World)
    (directory filename : CStr) (image : Ptr) :
    ((write_pgm_image env g w directory filename image).2 = none →
      write_pgm_image_streams env g w directory filename image
        = [.opened (directory ++ filename), .closed (directory ++ filename), .returned]) ∧
    (∀ e, (write_pgm_image env g w directory filename image).2 = some e →
      e = .ImageWriteError ∨ e = .MemoryFault →
      write_pgm_image_streams env g w directory filename image
        = [.opened (directory ++ filename), .exited (exit_status (some e))]) ∧
    (∀ e, (write_pgm_image env g w directory filename image).2 = some e →
      e = .DirectoryCreateError ∨ e = .PathTooLongError ∨ e = .FileOpenError →
      write_pgm_image_streams env g w directory filename image = [.exited 1]) := by
  by_cases hdir : isDirectory w directory = true ∨ env.mkdir_fails directory = false
  · have h0 : (!isDirectory w directory && env.mkdir_fails directory) = false := by
      rcases hdir with h | h <;> simp [h]
    by_cases hlen : 255 ≤ (directory ++ filename).length
    · have hs : write_pgm_image_streams env g w directory filename image = [.exited 1] := by
        rw [List.length_append] at hlen
        unfold write_pgm_image_streams
        simp only [h0, Bool.false_eq_true, if_false, MAX_PATH, ge_iff_le]
        by_cases hd : 255 ≤ directory.length
        · simp only [hd, if_true]
        · simp only [hd, if_false, hlen, if_true]
      rw [write_pgm_image_too_long env g w directory filename image hdir hlen, hs]
      exact ⟨fun h => (by cases h), fun e h he => (by
        injection h with h; subst h; rcases he with he | he <;> cases he), fun _ _ _ => rfl⟩
    · have hlen' := hlen
      rw [List.length_append] at hlen'
      have hd : ¬ 255 ≤ directory.length := by omega
      have hf : ¬ 255 ≤ directory.length + filename.length := by omega
      cases hopen : env.fopen_fails (directory ++ filename) with
      | true =>
        have hs : write_pgm_image_streams env g w directory filename image = [.exited 1] := by
          unfold write_pgm_image_streams
          simp only [h0, Bool.false_eq_true, if_false, MAX_PATH, ge_iff_le, hd, hf, hopen,
            if_true]
        rw [write_pgm_image_fopen_fails env g w directory filename image hdir (by omega) hopen,
          hs]
        exact ⟨fun h => (by cases h), fun e h he => (by
          injection h with h; subst h; rcases he with he | he <;> cases he), fun _ _ _ => rfl⟩
      | false =>
        have hs : write_pgm_image_streams env g w directory filename image
            = .opened (directory ++ filename) ::
              (if size_t_of_int (wrap32 (g.width * g.height)) > image.avail.length then
                [.exited (exit_status (some .MemoryFault))]
              else if min (env.fwrite_accepts (directory ++ filename)
                  (size_t_of_int (wrap32 (g.width * g.height))))
                  (size_t_of_int (wrap32 (g.width * g.height)))
                  ≠ size_t_of_int (wrap32 (g.width * g.height)) then [.exited 1]
              else [.closed (directory ++ filename), .returned]) := by
          unfold write_pgm_image_streams
          simp only [h0, Bool.false_eq_true, if_false, MAX_PATH, ge_iff_le, hd, hf, hopen]
        rw [write_pgm_image_opened env g w directory filename image hdir (by omega) hopen, hs]
        split_ifs
        · exact ⟨fun h => (by cases h), fun e h _ => (by injection h with h; subst h; rfl),
            fun e h he => (by
              injection h with h; subst h; rcases he with he | he | he <;> cases he)⟩
        · exact ⟨fun h => (by cases h), fun e h _ => (by injection h with h; subst h; rfl),
            fun e h he => (by
              injection h with h; subst h; rcases he with he | he | he <;> cases he)⟩
        · exact ⟨fun _ => rfl, fun e h _ => (by cases h), fun e h _ => (by cases h)⟩
  · have h1 : isDirectory w directory = false := by
      cases h : isDirectory w directory
      · rfl
      · exact absurd (Or.inl h) hdir
    have h2 : env.mkdir_fails directory = true := by
      cases h : env.mkdir_fails directory
      · exact absurd (Or.inr h) hdir
      · rfl
    have hs : write_pgm_image_streams env g w directory filename image = [.exited 1] := by
      simp [write_pgm_image_streams, h1, h2]
    rw [write_pgm_image_mkdir_fails env g w directory filename image h1 h2, hs]
    exact ⟨fun h => (by cases h), fun e h he => (by
      injection h with h; subst h; rcases he with he | he <;> cases he), fun _ _ _ => rfl⟩

/-- C13 (as stated it fails): `read_images` applied to the label file of the example opens the
file and stops at the magic number check with `exit(1)`; no `fclose` precedes the exit, and
the stream is open when the process ends inside the call. -/
theorem stream_open_at_exit_on_bad_magic :
    read_images example_world (ascii "labels") Globals.init = .error .BadMagicError ∧
    read_images_streams example_world (ascii "labels")
      = [.opened (ascii "labels"), .exited 1] ∧
    open_after (read_images_streams example_world (ascii "labels")) = [ascii "labels"] := by
  decide

/-- C13 (amended): every stream opened by `read_labels`, `read_images` or `write_pgm_image`
is closed by that same call when the call returns: its stream operations are then `fopen`,
`fclose`, return.  On every failure path that follows the `fopen` (bad magic, truncated read,
invalid header, short write, memory fault) the call ends the process without an `fclose`: its
stream operations are `fopen` and the exit, and the release of the stream is left to the
termination of the process.  On the failure paths before the `fopen` no stream was opened. -/
theorem streams_closed_on_return_only (env : Env) (g : Globals) (w : World)
    (name directory filename : CStr) (image : Ptr) :
    ((∀ r, read_labels w name g = .ok r →
        read_labels_streams w name = [.opened name, .closed name, .returned]) ∧
      (∀ e, read_labels w name g = .error e → e ≠ .FileOpenError →
        read_labels_streams w name = [.opened name, .exited (exit_status (some e))])) ∧
    ((∀ r, read_images w name g = .ok r →
        read_images_streams w name = [.opened name, .closed name, .returned]) ∧
      (∀ e, read_images w name g = .error e → e ≠ .FileOpenError →
        read_images_streams w name = [.opened name, .exited (exit_status (some e))])) ∧
    (((write_pgm_image env g w directory filename image).2 = none →
        write_pgm_image_streams env g w directory filename image
          = [.opened (directory ++ filename), .closed (directory ++ filename), .returned]) ∧
      (∀ e, (write_pgm_image env g w directory filename image).2 = some e →
        e = .ImageWriteError ∨ e = .MemoryFault →
        write_pgm_image_streams env g w directory filename image
          = [.opened (directory ++ filename), .exited (exit_status (some e))]) ∧
      (∀ e, (write_pgm_image env g w directory filename image).2 = some e →
        e = .DirectoryCreateError ∨ e = .PathTooLongError ∨ e = .FileOpenError →
        write_pgm_image_streams env g w directory filename image = [.exited 1])) :=
  ⟨read_labels_streams_spec w name g, read_images_streams_spec w name g,
    write_pgm_image_streams_spec env g w directory filename image⟩

/-- C13, witness: in the example of the specification `read_labels` returns and has closed
its stream, and `read_images` applied to the label file stops at the magic number with its
stream open. -/
theorem streams_closed_on_return_only_witness :
    read_labels example_world (ascii "labels") Globals.init
        = .ok ([3, 7], { num_labels := 2, num_images := 0, width := 0, height := 0 }) ∧
    read_labels_streams example_world (ascii "labels")
        = [.opened (ascii "labels"), .closed (ascii "labels"), .returned] ∧
    read_images example_world (ascii "labels") Globals.init = .error .BadMagicError ∧
    read_images_streams example_world (ascii "labels")
        = [.opened (ascii "labels"), .exited (exit_status (some .BadMagicError))] :=
  ⟨by decide,
    (streams_closed_on_return_only Env.ok Globals.init example_world (ascii "labels")
      (ascii "outdir/3/") (ascii "image0.pgm") { buf := [], off := 0 }).1.1
      ([3, 7], { num_labels := 2, num_images := 0, width := 0, height := 0 }) (by decide),
    by decide,
    (streams_closed_on_return_only Env.ok Globals.init example_world (ascii "labels")
      (ascii "outdir/3/") (ascii "image0.pgm") { buf := [], off := 0 }).2.1.2
      .BadMagicError (by decide) (by decide)⟩

/-! ## The loop up to the first path that is too long -/

/-- One iteration of the loop for a sample that fits the buffers and the path limit. -/
theorem convert_loop_step (env : Env) (g : Globals) (labels images : List UInt8)
    (output_dir : CStr) (width height : Nat) (hgw : g.width = width) (hgh : g.height = height)
    (hhpos : 0 < height) (hmk : ∀ p, env.mkdir_fails p = false)
    (hop : ∀ p, env.fopen_fails p = false) (hwr : ∀ p n, env.fwrite_accepts p n = n)
    (k i : Nat) (w : World) (hi : i < labels.length)
    (hfit : (i + 1) * (width * height) ≤ images.length)
    (hsmall : (i + 1) * (width * height) < 2147483648)
    (hp : (sample_path output_dir (labels.getD i 0) i).length < 255) :
    convert_loop env g labels images output_dir (k + 1) i w
      = convert_loop env g labels images output_dir k (i + 1)
          ((w.ensure_dir (sample_dir output_dir (labels.getD i 0))).store
            (sample_path output_dir (labels.getD i 0) i)
            (pgm_header g ++ (images.drop (i * (width * height))).take (width * height))) := by
  have hget : labels.get? i = some (labels.getD i 0) := by
    rw [List.get?_eq_getElem?, List.getElem?_eq_getElem hi, List.getD_eq_getElem _ _ hi]
  unfold sample_path sample_dir at *
  have hp' := hp
  rw [List.length_append] at hp'
  have hd : ¬ 255 ≤ (output_dir ++ ascii "/" ++ fmt_d ((labels.getD i 0).toNat : Int)
      ++ ascii "/").length := by omega
  have hf : ¬ 255 ≤ (ascii "image" ++ fmt_d (i : Int) ++ ascii ".pgm").length := by omega
  have hres := write_pgm_image_sample env g w
    (output_dir ++ ascii "/" ++ fmt_d ((labels.getD i 0).toNat : Int) ++ ascii "/")
    (ascii "image" ++ fmt_d (i : Int) ++ ascii ".pgm") images width height i hgw hgh hhpos
    hfit hsmall (Or.inr (hmk _)) hp (hop _) hwr
  rw [convert_loop]
  simp only [hget, MAX_PATH, ge_iff_le, hd, hf, if_false, hres]

/-- One iteration of the loop for a sample whose path is too long: the loop stops with the
path-too-long error; the directory of the sample has been ensured only if the directory
string and the file name passed the checks of `main`. -/
theorem convert_loop_long_path (env : Env) (g : Globals) (labels images : List UInt8)
    (output_dir : CStr) (hmk : ∀ p, env.mkdir_fails p = false) (k i : Nat) (w : World)
    (hi : i < labels.length)
    (hlong : 255 ≤ (sample_path output_dir (labels.getD i 0) i).length) :
    convert_loop env g labels images output_dir (k + 1) i w
      = (if 255 ≤ (sample_dir output_dir (labels.getD i 0)).length
            ∨ 255 ≤ (sample_file i).length then w
          else w.ensure_dir (sample_dir output_dir (labels.getD i 0)),
        some .PathTooLongError) := by
  have hget : labels.get? i = some (labels.getD i 0) := by
    rw [List.get?_eq_getElem?, List.getElem?_eq_getElem hi, List.getD_eq_getElem _ _ hi]
  unfold sample_path sample_dir sample_file at *
  rw [convert_loop]
  by_cases hd : 255 ≤ (output_dir ++ ascii "/" ++ fmt_d ((labels.getD i 0).toNat : Int)
      ++ ascii "/").length
  · simp only [hget, MAX_PATH, ge_iff_le, hd, if_true, true_or]
  · by_cases hf : 255 ≤ (ascii "image" ++ fmt_d (i : Int) ++ ascii ".pgm").length
    · simp only [hget, MAX_PATH, ge_iff_le, hd, hf, if_true, if_false, or_true]
    · have hres := write_pgm_image_too_long env g w
        (output_dir ++ ascii "/" ++ fmt_d ((labels.getD i 0).toNat : Int) ++ ascii "/")
        (ascii "image" ++ fmt_d (i : Int) ++ ascii ".pgm")
        { buf := images, off := wrap32 (wrap32 ((i : Int) * g.width) * g.height) }
        (Or.inr (hmk _)) hlong
      simp only [hget, MAX_PATH, ge_iff_le, hd, hf, if_false, or_self, hres]

/-- The loop over `k` samples from index `i` on, when the samples `i`, ..., `i + m - 1` fit
and the path of sample `i + m` is too long: it stops there with the path-too-long error, in
the world that the `m` good samples leave, with the directory of the long sample ensured only
if its directory string and file name passed the checks of `main`. -/
theorem convert_loop_stops (env : Env) (g : Globals) (labels images : List UInt8)
    (output_dir : CStr) (width height : Nat) (hgw : g.width = width) (hgh : g.height = height)
    (hhpos : 0 < height) (hmk : ∀ p, env.mkdir_fails p = false)
    (hop : ∀ p, env.fopen_fails p = false) (hwr : ∀ p n, env.fwrite_accepts p n = n) :
    ∀ (m k i : Nat) (w : World), m < k → i + m < labels.length →
      (i + m) * (width * height) ≤ images.length →
      (i + m) * (width * height) < 2147483648 →
      (∀ j, i ≤ j → j < i + m → (sample_path output_dir (labels.getD j 0) j).length < 255) →
      255 ≤ (sample_path output_dir (labels.getD (i + m) 0) (i + m)).length →
      convert_loop env g labels images output_dir k i w
        = (if 255 ≤ (sample_dir output_dir (labels.getD (i + m) 0)).length
              ∨ 255 ≤ (sample_file (i + m)).length then
            (convert_loop env g labels images output_dir m i w).1
          else (convert_loop env g labels images output_dir m i w).1.ensure_dir
            (sample_dir output_dir (labels.getD (i + m) 0)),
          some .PathTooLongError) := by
  intro m
  induction m with
  | zero =>
    intro k i w hk hlab _ _ _ hlong
    obtain ⟨k', rfl⟩ : ∃ k', k = k' + 1 := ⟨k - 1, by omega⟩
    rw [Nat.add_zero] at hlab hlong ⊢
    rw [convert_loop_long_path env g labels images output_dir hmk k' i w hlab hlong]
    rfl
  | succ m ih =>
    intro k i w hk hlab himg hsmall hpath hlong
    obtain ⟨k', rfl⟩ : ∃ k', k = k' + 1 := ⟨k - 1, by omega⟩
    have e1 : i + (m + 1) = i + 1 + m := by omega
    have hmono : (i + 1) * (width * height) ≤ (i + (m + 1)) * (width * height) :=
      Nat.mul_le_mul_right _ (by omega)
    have hp := hpath i (Nat.le_refl _) (by omega)
    rw [convert_loop_step env g labels images output_dir width height hgw hgh hhpos hmk hop hwr
        k' i w (by omega) (by omega) (by omega) hp,
      convert_loop_step env g labels images output_dir width height hgw hgh hhpos hmk hop hwr
        m i w (by omega) (by omega) (by omega) hp, e1]
    rw [e1] at hlab himg hsmall hlong
    exact ih k' (i + 1) _ (by omega) hlab himg hsmall
      (fun j h1 h2 => hpath j (by omega) (by omega)) hlong

theorem ensure_dir_created (w : World) (path d : CStr)
    (h : d ∈ (w.ensure_dir path).created) : d ∈ w.created ∨ d = path := by
  unfold World.ensure_dir World.mkdir at h
  split at h
  · exact Or.inl h
  · rcases List.mem_append.mp h with h | h
    · exact Or.inl h
    · exact Or.inr (List.mem_singleton.mp h)

/-- The directories that the loop has made after `m` good samples are directories of these
samples. -/
theorem convert_loop_created (env : Env) (g : Globals) (labels images : List UInt8)
    (output_dir : CStr) (width height : Nat) (hgw : g.width = width) (hgh : g.height = height)
    (hhpos : 0 < height) (hmk : ∀ p, env.mkdir_fails p = false)
    (hop : ∀ p, env.fopen_fails p = false) (hwr : ∀ p n, env.fwrite_accepts p n = n) :
    ∀ (m i : Nat) (w : World), i + m ≤ labels.length →
      (i + m) * (width * height) ≤ images.length →
      (i + m) * (width * height) < 2147483648 →
      (∀ j, i ≤ j → j < i + m → (sample_path output_dir (labels.getD j 0) j).length < 255) →
      ∀ d ∈ (convert_loop env g labels images output_dir m i w).1.created,
        d ∈ w.created ∨ ∃ j, i ≤ j ∧ j < i + m ∧ d = sample_dir output_dir (labels.getD j 0) := by
  intro m
  induction m with
  | zero =>
    intro i w _ _ _ _ d hd
    exact Or.inl hd
  | succ m ih =>
    intro i w hlab himg hsmall hpath d hd
    have e1 : i + (m + 1) = i + 1 + m := by omega
    have hmono : (i + 1) * (width * height) ≤ (i + (m + 1)) * (width * height) :=
      Nat.mul_le_mul_right _ (by omega)
    have hp := hpath i (Nat.le_refl _) (by omega)
    rw [convert_loop_step env g labels images output_dir width height hgw hgh hhpos hmk hop hwr
        m i w (by omega) (by omega) (by omega) hp] at hd
    rw [e1] at hlab himg hsmall
    rcases ih (i + 1) _ hlab himg hsmall (fun j h1 h2 => hpath j (by omega) (by omega)) d hd
      with h | ⟨j, h1, h2, h3⟩
    · rcases ensure_dir_created w _ d h with h | h
      · exact Or.inl h
      · exact Or.inr ⟨i, Nat.le_refl _, by omega, h⟩
    · exact Or.inr ⟨j, by omega, by omega, h3⟩

/-! ## A run that meets a path that is too long -/

/-- With valid input files, equal counts and an existing output directory the run is the loop
over all samples. -/
theorem main_reaches_loop (env : Env) (w : World)
    (labels_file images_file output_dir : CStr) (lfile ifile : List UInt8)
    (hlf : w.files.lookup labels_file = some lfile)
    (hif : w.files.lookup images_file = some ifile)
    (hl8 : 8 ≤ lfile.length) (hlm : u32_at lfile 0 = 2049)
    (hll : 8 + u32_at lfile 4 ≤ lfile.length)
    (hi16 : 16 ≤ ifile.length) (him : u32_at ifile 0 = 2051)
    (hn : 0 < u32_at ifile 4) (hh : 0 < u32_at ifile 8) (hw : 0 < u32_at ifile 12)
    (hsmall : u32_at ifile 4 * u32_at ifile 8 * u32_at ifile 12 < 2147483648)
    (hil : 16 + u32_at ifile 4 * u32_at ifile 8 * u32_at ifile 12 ≤ ifile.length)
    (hcount : u32_at lfile 4 = u32_at ifile 4)
    (hout : isDirectory w output_dir = true) (r : World × Option Error)
    (hr : convert_loop env
        { num_labels := (u32_at ifile 4 : Int), num_images := (u32_at ifile 4 : Int),
          width := (u32_at ifile 12 : Int), height := (u32_at ifile 8 : Int) }
        ((lfile.drop 8).take (u32_at ifile 4))
        ((ifile.drop 16).take (u32_at ifile 4 * u32_at ifile 8 * u32_at ifile 12))
        output_dir (u32_at ifile 4) 0 w = r) :
    main env w [labels_file, images_file, output_dir]
      = { status := exit_status r.2, error := r.2, world := r.1 } := by
  rw [hcount] at hll
  have hprod : u32_at ifile 4 * u32_at ifile 8 * u32_at ifile 12
      = u32_at ifile 4 * (u32_at ifile 12 * u32_at ifile 8) := by
    rw [Nat.mul_assoc, Nat.mul_comm (u32_at ifile 8)]
  have hnle : u32_at ifile 4 ≤ u32_at ifile 4 * (u32_at ifile 12 * u32_at ifile 8) :=
    Nat.le_mul_of_pos_right _ (Nat.mul_pos hw hh)
  have hnsmall : u32_at ifile 4 < 2147483648 := by rw [hprod] at hsmall; omega
  have hlabels : read_labels w labels_file Globals.init
      = .ok ((lfile.drop 8).take (u32_at ifile 4),
          { num_labels := (u32_at ifile 4 : Int), num_images := 0, width := 0, height := 0 }) := by
    rw [read_labels_of_lookup w labels_file lfile _ hlf,
      read_labels_stream_valid lfile _ hl8 hlm (by omega) (by omega), hcount]
    rfl
  have himages : read_images w images_file
        { num_labels := (u32_at ifile 4 : Int), num_images := 0, width := 0, height := 0 }
      = .ok ((ifile.drop 16).take (u32_at ifile 4 * u32_at ifile 8 * u32_at ifile 12),
          { num_labels := (u32_at ifile 4 : Int), num_images := (u32_at ifile 4 : Int),
            width := (u32_at ifile 12 : Int), height := (u32_at ifile 8 : Int) }) := by
    rw [read_images_of_lookup w images_file ifile _ hif,
      read_images_stream_valid ifile _ hi16 him hn hh hw hsmall hil]
  simp only [main, hlabels, himages, ne_eq, not_true_eq_false, if_false, hout,
    Bool.not_true, Bool.false_eq_true, Int.toNat_ofNat, hr]

set_option maxRecDepth 100000 in
/-- C11 (as stated it fails): with the labels 3 and 100 and an output directory name of 251
bytes the directory string of sample 0 has 254 bytes and fits, and the one of sample 1 has 256
bytes and does not, so that sample 1 is the first whose directory string does not fit.  The
run stops with the path-too-long error and exit status 1, but it has not written the file of
sample 0: the composed path of sample 0 is already too long. -/
theorem first_long_directory_is_not_where_the_run_stops :
    (sample_dir output_dir_251 3).length = 254 ∧
    (sample_dir output_dir_251 100).length = 256 ∧
    (main Env.ok output_251_world [ascii "labels", ascii "images", output_dir_251]).error
      = some .PathTooLongError ∧
    (main Env.ok output_251_world [ascii "labels", ascii "images", output_dir_251]).status = 1 ∧
    (main Env.ok output_251_world
      [ascii "labels", ascii "images", output_dir_251]).world.written = [] := by
  decide

/-- C11 (amended): for every run with valid, consistent inputs (label file: magic 2049, count,
at least count label bytes; image file: magic 2051, positive header words whose product is
less than `2^31`, at least that many payload bytes; equal counts) and an existing output
directory in which no `mkdir`, `fopen` or `fwrite` fails, if `b` is the least sample index
whose composed path `output_dir/<label>/image<b>.pgm` (directory string and file name) does
not fit in the 255-byte buffer, the run stops with the path-too-long error and exit status 1
having written exactly the files of the samples `0`, ..., `b - 1`; it writes no file for sample
`b` or a later sample, and when the directory string of sample `b` itself does not fit it does
not make the directory of sample `b` either. -/
theorem run_stops_at_first_long_path (env : Env) (w : World)
    (labels_file images_file output_dir : CStr) (lfile ifile : List UInt8)
    (hlf : w.files.lookup labels_file = some lfile)
    (hif : w.files.lookup images_file = some ifile)
    (hl8 : 8 ≤ lfile.length) (hlm : u32_at lfile 0 = 2049)
    (hll : 8 + u32_at lfile 4 ≤ lfile.length)
    (hi16 : 16 ≤ ifile.length) (him : u32_at ifile 0 = 2051)
    (hn : 0 < u32_at ifile 4) (hh : 0 < u32_at ifile 8) (hw : 0 < u32_at ifile 12)
    (hsmall : u32_at ifile 4 * u32_at ifile 8 * u32_at ifile 12 < 2147483648)
    (hil : 16 + u32_at ifile 4 * u32_at ifile 8 * u32_at ifile 12 ≤ ifile.length)
    (hcount : u32_at lfile 4 = u32_at ifile 4)
    (hout : isDirectory w output_dir = true)
    (b : Nat) (hb : b < u32_at ifile 4)
    (hfit : ∀ j, j < b → (sample_path output_dir (lfile.getD (8 + j) 0) j).length < 255)
    (hlong : 255 ≤ (sample_path output_dir (lfile.getD (8 + b) 0) b).length)
    (hmk : ∀ p, env.mkdir_fails p = false) (hop : ∀ p, env.fopen_fails p = false)
    (hwr : ∀ p n, env.fwrite_accepts p n = n) :
    (main env w [labels_file, images_file, output_dir]).error = some .PathTooLongError ∧
    (main env w [labels_file, images_file, output_dir]).status = 1 ∧
    (main env w [labels_file, images_file, output_dir]).world.written
      = w.written ++ (List.range b).map (fun i =>
        (sample_path output_dir (lfile.getD (8 + i) 0) i,
          spec_header (u32_at ifile 12) (u32_at ifile 8)
            ++ (ifile.drop (16 + i * (u32_at ifile 12 * u32_at ifile 8))).take
              (u32_at ifile 12 * u32_at ifile 8))) ∧
    (255 ≤ (sample_dir output_dir (lfile.getD (8 + b) 0)).length →
      sample_dir output_dir (lfile.getD (8 + b) 0) ∉ w.created →
      sample_dir output_dir (lfile.getD (8 + b) 0)
        ∉ (main env w [labels_file, images_file, output_dir]).world.created) := by
  have hll' := hll
  rw [hcount] at hll'
  have hprod : u32_at ifile 4 * u32_at ifile 8 * u32_at ifile 12
      = u32_at ifile 4 * (u32_at ifile 12 * u32_at ifile 8) := by
    rw [Nat.mul_assoc, Nat.mul_comm (u32_at ifile 8)]
  have hlen_l : ((lfile.drop 8).take (u32_at ifile 4)).length = u32_at ifile 4 := by
    rw [List.length_take, List.length_drop]; omega
  have hlen_i : ((ifile.drop 16).take (u32_at ifile 4 * u32_at ifile 8 * u32_at ifile 12)).length
      = u32_at ifile 4 * (u32_at ifile 12 * u32_at ifile 8) := by
    rw [List.length_take, List.length_drop, ← hprod]; omega
  have hbS : b * (u32_at ifile 12 * u32_at ifile 8)
      ≤ u32_at ifile 4 * (u32_at ifile 12 * u32_at ifile 8) :=
    Nat.mul_le_mul_right _ (by omega)
  have hsmall' : u32_at ifile 4 * (u32_at ifile 12 * u32_at ifile 8) < 2147483648 := by
    rw [← hprod]; exact hsmall
  have hpath' : ∀ j, 0 ≤ j → j < 0 + b → (sample_path output_dir
      (((lfile.drop 8).take (u32_at ifile 4)).getD j 0) j).length < 255 := by
    intro j _ h2
    rw [Nat.zero_add] at h2
    rw [getD_take_drop lfile 8 _ j (by omega)]
    exact hfit j h2
  have hlong' : 255 ≤ (sample_path output_dir
      (((lfile.drop 8).take (u32_at ifile 4)).getD (0 + b) 0) (0 + b)).length := by
    rw [Nat.zero_add, getD_take_drop lfile 8 _ b hb]
    exact hlong
  obtain ⟨w', hloop, hwritten⟩ := convert_loop_ok env
    { num_labels := (u32_at ifile 4 : Int), num_images := (u32_at ifile 4 : Int),
      width := (u32_at ifile 12 : Int), height := (u32_at ifile 8 : Int) }
    ((lfile.drop 8).take (u32_at ifile 4))
    ((ifile.drop 16).take (u32_at ifile 4 * u32_at ifile 8 * u32_at ifile 12))
    output_dir (u32_at ifile 12) (u32_at ifile 8) rfl rfl hh hmk hop hwr b 0 w
    (by rw [Nat.zero_add, hlen_l]; omega) (by rw [Nat.zero_add, hlen_i]; exact hbS)
    (by rw [Nat.zero_add]; omega) hpath'
  have hcreated := convert_loop_created env
    { num_labels := (u32_at ifile 4 : Int), num_images := (u32_at ifile 4 : Int),
      width := (u32_at ifile 12 : Int), height := (u32_at ifile 8 : Int) }
    ((lfile.drop 8).take (u32_at ifile 4))
    ((ifile.drop 16).take (u32_at ifile 4 * u32_at ifile 8 * u32_at ifile 12))
    output_dir (u32_at ifile 12) (u32_at ifile 8) rfl rfl hh hmk hop hwr b 0 w
    (by rw [Nat.zero_add, hlen_l]; omega) (by rw [Nat.zero_add, hlen_i]; exact hbS)
    (by rw [Nat.zero_add]; omega) hpath'
  have hstop := convert_loop_stops env
    { num_labels := (u32_at ifile 4 : Int), num_images := (u32_at ifile 4 : Int),
      width := (u32_at ifile 12 : Int), height := (u32_at ifile 8 : Int) }
    ((lfile.drop 8).take (u32_at ifile 4))
    ((ifile.drop 16).take (u32_at ifile 4 * u32_at ifile 8 * u32_at ifile 12))
    output_dir (u32_at ifile 12) (u32_at ifile 8) rfl rfl hh hmk hop hwr b (u32_at ifile 4) 0 w
    hb (by rw [Nat.zero_add, hlen_l]; exact hb) (by rw [Nat.zero_add, hlen_i]; exact hbS)
    (by rw [Nat.zero_add]; omega) hpath' hlong'
  rw [hloop] at hstop hcreated
  rw [Nat.zero_add, getD_take_drop lfile 8 _ b hb] at hstop
  rw [main_reaches_loop env w labels_file images_file output_dir lfile ifile hlf hif hl8 hlm hll
    hi16 him hn hh hw hsmall hil hcount hout _ hstop]
  refine ⟨rfl, rfl, ?_, ?_⟩
  · have hw_eq : (if 255 ≤ (sample_dir output_dir (lfile.getD (8 + b) 0)).length
          ∨ 255 ≤ (sample_file b).length then w'
        else w'.ensure_dir (sample_dir output_dir (lfile.getD (8 + b) 0))).written
        = w'.written := by
      split
      · rfl
      · exact ensure_dir_written _ _
    show (if 255 ≤ (sample_dir output_dir (lfile.getD (8 + b) 0)).length
          ∨ 255 ≤ (sample_file b).length then w'
        else w'.ensure_dir (sample_dir output_dir (lfile.getD (8 + b) 0))).written = _
    rw [hw_eq, hwritten, List.range_eq_range']
    congr 1
    apply List.map_congr_left
    intro j hj
    have hj' : j < b := by
      have := (List.mem_range'_1.mp hj).2
      omega
    have hslice : j * (u32_at ifile 12 * u32_at ifile 8) + u32_at ifile 12 * u32_at ifile 8
        ≤ u32_at ifile 4 * u32_at ifile 8 * u32_at ifile 12 := by
      rw [hprod, ← Nat.succ_mul]
      exact Nat.mul_le_mul_right _ (by omega)
    rw [getD_take_drop lfile 8 _ j (by omega), slice_take_drop ifile 16 _ _ _ hslice,
      pgm_header_eq_spec _ (u32_at ifile 12) (u32_at ifile 8) rfl rfl]
  · intro hdlong hnot hmem
    have hmem' : sample_dir output_dir (lfile.getD (8 + b) 0) ∈ w'.created := by
      have hc : (if 255 ≤ (sample_dir output_dir (lfile.getD (8 + b) 0)).length
            ∨ 255 ≤ (sample_file b).length then w'
          else w'.ensure_dir (sample_dir output_dir (lfile.getD (8 + b) 0))) = w' :=
        if_pos (Or.inl hdlong)
      rw [← hc]
      exact hmem
    rcases hcreated _ hmem' with h | ⟨j, _, h2, h3⟩
    · exact hnot h
    · rw [Nat.zero_add] at h2
      rw [getD_take_drop lfile 8 _ j (by omega)] at h3
      have hpj := hfit j h2
      rw [sample_path_eq, List.length_append, ← h3] at hpj
      omega

set_option maxRecDepth 100000 in
/-- C11, witness: with the labels 3 and 100 and an output directory name of 241 bytes the path
of sample 0 has 254 bytes and the path of sample 1 has 256; the run writes the file of sample
0 and stops at sample 1. -/
theorem run_stops_at_first_long_path_witness :
    ((main Env.ok output_241_world [ascii "labels", ascii "images", output_dir_241]).error
        = some .PathTooLongError ∧
      (main Env.ok output_241_world [ascii "labels", ascii "images", output_dir_241]).status
        = 1 ∧
      (main Env.ok output_241_world
          [ascii "labels", ascii "images", output_dir_241]).world.written
        = output_241_world.written ++ (List.range 1).map (fun i =>
          (sample_path output_dir_241 (two_digit_labels_file.getD (8 + i) 0) i,
            spec_header (u32_at example_images_file 12) (u32_at example_images_file 8)
              ++ (example_images_file.drop (16 + i * (u32_at example_images_file 12
                  * u32_at example_images_file 8))).take
                (u32_at example_images_file 12 * u32_at example_images_file 8))) ∧
      (255 ≤ (sample_dir output_dir_241 (two_digit_labels_file.getD (8 + 1) 0)).length →
        sample_dir output_dir_241 (two_digit_labels_file.getD (8 + 1) 0)
          ∉ output_241_world.created →
        sample_dir output_dir_241 (two_digit_labels_file.getD (8 + 1) 0)
          ∉ (main Env.ok output_241_world
              [ascii "labels", ascii "images", output_dir_241]).world.created)) ∧
    (main Env.ok output_241_world
        [ascii "labels", ascii "images", output_dir_241]).world.written
      = [(sample_path output_dir_241 3 0, ascii "P5 2 2 255\n" ++ [10, 20, 30, 40])] :=
  ⟨run_stops_at_first_long_path Env.ok output_241_world (ascii "labels") (ascii "images")
      output_dir_241 two_digit_labels_file example_images_file (by decide) (by decide)
      (by decide) (by decide) (by decide) (by decide) (by decide) (by decide) (by decide)
      (by decide) (by decide) (by decide) (by decide) (by decide) 1 (by decide) (by decide)
      (by decide) (fun _ => rfl) (fun _ => rfl) (fun _ _ => rfl),
    by decide⟩

end Mnist
